import Mathlib

/-!
Scriptnode node containers (HISE): a shallow embedding.

The definitions below follow
`hi_scripting/scripting/scriptnode/data/NodeContainer.cpp` and, for the
timeline audio object, `hi_components/floating_layout/BackendPanelTypes.cpp`.

* `int` values are modelled as `Int` (channel counts are tiny, no overflow is
  involved); C++ integer division truncates toward zero, which is `Int.tdiv`.
* `double` / `float` values are modelled as exact rationals `ℚ` (or as an
  arbitrary additive type for audio samples); no statement below depends on
  rounding.
* Objects referenced through pointers are identified by a natural number.
* Calls of virtual or external methods that a statement talks about are
  recorded in ghost logs (`calls`, `setNumChannelsCalls`, `invoked`,
  `effects`).
-/

set_option autoImplicit false

namespace scriptnode

/-! ## NodeBase (the part of it the containers use) -/

/-- Modelled from the spec: `NodeBase::Parameter` is declared outside this file;
a parameter has an id and a backing tree entity. -/
structure Parameter where
  /-- the parameter id, `getId()` -/
  id : String
  /-- the backing `ValueTree` entity, `data` -/
  data : Nat
deriving DecidableEq, Repr

/-- Modelled from the spec: `NodeBase` is declared outside this file; a node has
an identity, a string id unique in the graph, a backing tree entity, a current
channel count, a fixed-or-flexible channel-count capability flag and an ordered
list of parameters. -/
structure NodeBase where
  /-- object identity (the `NodeBase*`) -/
  id : Nat
  /-- the backing `ValueTree` entity -/
  valueTree : Nat
  /-- current channel count -/
  numChannels : Int
  /-- fixed channel amount capability flag -/
  fixChannelAmount : Bool
  /-- the string id of the node, `getId()` -/
  nodeId : String := ""
  /-- the parameters of the node, `getParameter(i)` -/
  parameters : List Parameter := []
deriving DecidableEq, Repr

namespace NodeBase

/-- Modelled from the spec: `NodeBase::hasFixChannelAmount`, the capability
flag of the node. -/
def hasFixChannelAmount (n : NodeBase) : Bool := n.fixChannelAmount

/-- Modelled from the spec: `NodeBase::getNumChannelsToProcess`, the current
channel count of the node. -/
def getNumChannelsToProcess (n : NodeBase) : Int := n.numChannels

/-- Modelled from the spec: `NodeBase::setNumChannels`, which assigns the
current channel count of the node. -/
def setNumChannels (n : NodeBase) (newNumChannels : Int) : NodeBase :=
  { n with numChannels := newNumChannels }

end NodeBase

/-- `juce::jmax` on `int`. -/
def jmax (a b : Int) : Int := if a < b then b else a

/-- `juce::jmin` on `int`. -/
def jmin (a b : Int) : Int := if b < a then b else a

/-! ## MultiChannelNode::channelLayoutChanged -/

namespace MultiChannelNode

/-- The first loop of `channelLayoutChanged`: children with a fixed channel
amount take their channels out of `numChannelsAvailable` and are not counted in
`numNodes`.  The pair is `(numChannelsAvailable, numNodes)`. -/
def lockedPass : List NodeBase → Int × Int → Int × Int
  | [], acc => acc
  | n :: rest, (numChannelsAvailable, numNodes) =>
    if n.hasFixChannelAmount then
      lockedPass rest (numChannelsAvailable - n.getNumChannelsToProcess, numNodes - 1)
    else
      lockedPass rest (numChannelsAvailable, numNodes)

/-- Result of a layout run: the children after the run and the ghost log of
the `setNumChannels` calls `(node id, requested count)` in call order. -/
structure Layout where
  nodes : List NodeBase
  setNumChannelsCalls : List (Nat × Int)
deriving DecidableEq, Repr

/-- The second loop of `channelLayoutChanged`, over the remaining children,
with the running `numChannelsAvailable`. -/
def distributePass (nodeThatCausedLayoutChange : Option Nat) (numPerNode : Int) :
    List NodeBase → Int → Layout
  | [], _ => ⟨[], []⟩
  | n :: rest, numChannelsAvailable =>
    if n.hasFixChannelAmount then
      let r := distributePass nodeThatCausedLayoutChange numPerNode rest numChannelsAvailable
      ⟨n :: r.nodes, r.setNumChannelsCalls⟩
    else
      let thisNum := jmax 0 (jmin numChannelsAvailable numPerNode)
      if some n.id ≠ nodeThatCausedLayoutChange then
        let n1 := n.setNumChannels thisNum
        let r := distributePass nodeThatCausedLayoutChange numPerNode rest
          (numChannelsAvailable - n1.getNumChannelsToProcess)
        ⟨n1 :: r.nodes, (n.id, thisNum) :: r.setNumChannelsCalls⟩
      else
        let r := distributePass nodeThatCausedLayoutChange numPerNode rest
          (numChannelsAvailable - n.getNumChannelsToProcess)
        ⟨n :: r.nodes, r.setNumChannelsCalls⟩

/-- `MultiChannelNode::channelLayoutChanged(nodeThatCausedLayoutChange)` for a
container whose `getNumChannelsToProcess()` is `numChannels` and whose child list
is `nodes`; `none` is the `nullptr` cause. -/
def channelLayoutChanged (numChannels : Int) (nodes : List NodeBase)
    (nodeThatCausedLayoutChange : Option Nat) : Layout :=
  if nodes.length = 0 then ⟨nodes, []⟩
  else
    let p := lockedPass nodes (numChannels, (nodes.length : Int))
    if 0 < p.2 then
      let numPerNode := Int.tdiv p.1 p.2
      distributePass nodeThatCausedLayoutChange numPerNode nodes p.1
    else ⟨nodes, []⟩

/-- Sum of the channel counts of a child list. -/
def totalChannels (nodes : List NodeBase) : Int :=
  (nodes.map NodeBase.getNumChannelsToProcess).sum

/-- Sum of the channel counts of the children with a fixed channel amount. -/
def fixedChannels (nodes : List NodeBase) : Int :=
  ((nodes.filter NodeBase.hasFixChannelAmount).map NodeBase.getNumChannelsToProcess).sum

/-- Number of children without a fixed channel amount. -/
def numFlexible (nodes : List NodeBase) : Nat :=
  (nodes.filter (fun n => !n.hasFixChannelAmount)).length

/-- The children after an even distribution of `numPerNode` channels. -/
def evenly (numPerNode : Int) (nodes : List NodeBase) : List NodeBase :=
  nodes.map (fun n => if n.hasFixChannelAmount then n else n.setNumChannels numPerNode)

/-- Sum of the channel counts of the children without a fixed channel amount. -/
def flexibleChannels (nodes : List NodeBase) : Int :=
  ((nodes.filter (fun n => !n.hasFixChannelAmount)).map NodeBase.getNumChannelsToProcess).sum

/-- The second pass in the words of the specification: every flexible child
other than the cause is assigned `max(0, min(pool, share))`, and every flexible
child, the cause included, takes that share out of the pool. -/
def claimedDistribution (nodeThatCausedLayoutChange : Option Nat) (share : Int) :
    List NodeBase → Int → List NodeBase
  | [], _ => []
  | n :: rest, pool =>
    if n.hasFixChannelAmount then
      n :: claimedDistribution nodeThatCausedLayoutChange share rest pool
    else
      let thisShare := max 0 (min pool share)
      (if some n.id = nodeThatCausedLayoutChange then n else n.setNumChannels thisShare)
        :: claimedDistribution nodeThatCausedLayoutChange share rest (pool - thisShare)

/-- The division `numChannelsAvailable / numNodes` of a run of
`channelLayoutChanged`: its divisor, `none` when the run returns without
reaching the division (no children, or no child left after the first loop). -/
def numPerNodeDivisor (numChannels : Int) (nodes : List NodeBase) : Option Int :=
  if nodes.length = 0 then none
  else
    let p := lockedPass nodes (numChannels, (nodes.length : Int))
    if 0 < p.2 then some p.2 else none

end MultiChannelNode

/-! ## ValueTree child lists and juce::Array (library operations) -/

namespace ValueTree

/-- `ValueTree::indexOf(child)`: position of `child` among the children, `-1`
when it is not a child. -/
def indexOf (children : List Nat) (child : Nat) : Int :=
  if child ∈ children then (children.indexOf child : Int) else -1

/-- `ValueTree::removeChild(child, undo)`: detaches `child` when it is one of
the children. -/
def removeChild (children : List Nat) (child : Nat) : List Nat :=
  children.erase child

/-- `ValueTree::removeChild(index, undo)`: removes the child at `index`, nothing
when the index is out of range. -/
def removeChildAt (children : List Nat) (index : Int) : List Nat :=
  if 0 ≤ index ∧ index < children.length then children.eraseIdx index.toNat else children

/-- `ValueTree::addChild(child, index, undo)` for a detached `child` that is
not an ancestor of the tree: inserted at `index`, appended when `index` is not
the position of a present child. -/
def addChild (children : List Nat) (child : Nat) (index : Int) : List Nat :=
  if 0 ≤ index ∧ index < children.length then children.insertIdx index.toNat child
  else children ++ [child]

end ValueTree

/-- `nodes.contains(node)`: pointer comparison. -/
def containsNode (nodes : List NodeBase) (node : NodeBase) : Bool :=
  nodes.any (fun n => n.id == node.id)

/-- `nodes.insert(index, node)` of `juce::Array`: an index below zero or above
the size appends. -/
def insertNode (nodes : List NodeBase) (index : Int) (node : NodeBase) : List NodeBase :=
  if 0 ≤ index ∧ index ≤ nodes.length then nodes.insertIdx index.toNat node
  else nodes ++ [node]

/-- `nodes.removeAllInstancesOf(node)`: pointer comparison. -/
def removeAllInstancesOf (nodes : List NodeBase) (node : NodeBase) : List NodeBase :=
  nodes.filter (fun n => n.id != node.id)

/-! ## NodeContainer -/

/-- A recorded call of one of the container's virtual methods (ghost log). -/
inductive Call where
  | channelLayoutChanged (nodeThatCausedLayoutChange : Option Nat)
  | prepare (sampleRate : Int) (blockSize : Int)
deriving DecidableEq, Repr

/-- The state of a `NodeContainer` that the functions of this file read and
write.  `originalSampleRate` is a `double` in the source; only its sign is
inspected, it is kept as an integer number of Hz. -/
structure NodeContainer where
  /-- `getValueTree()`, the container's own tree entity -/
  valueTree : Nat
  /-- the children of `getNodeTree()`, in order -/
  nodeTree : List Nat
  /-- the children of `getParameterTree()`, in order -/
  parameterTree : List Nat
  /-- `getNumChannelsToProcess()` of the container -/
  numChannels : Int
  /-- the node list `nodes` -/
  nodes : List NodeBase
  /-- the parameter list, `getParameter(i)` -/
  parameters : List Parameter
  channelRecursionProtection : Bool
  originalSampleRate : Int
  originalBlockSize : Int
  /-- ghost log of the virtual calls made so far, oldest first -/
  calls : List Call
deriving DecidableEq, Repr

/-- The virtual methods `channelLayoutChanged` and `prepare` of a concrete
container class, as transformers of the container state.  They run in the state
in which they are called, so a body may re-enter the container. -/
structure Virtuals where
  channelLayoutChanged : Option Nat → NodeContainer → NodeContainer
  prepare : Int → Int → NodeContainer → NodeContainer

/-- The virtual methods leave the membership and order of the node list alone
(they may change the channel counts of the nodes in it). -/
def Virtuals.KeepNodeList (V : Virtuals) : Prop :=
  (∀ cause s, (V.channelLayoutChanged cause s).nodes.map NodeBase.id = s.nodes.map NodeBase.id) ∧
  (∀ sampleRate blockSize s,
    (V.prepare sampleRate blockSize s).nodes.map NodeBase.id = s.nodes.map NodeBase.id)

/-- The bodies of the virtual methods do not call back into the container: they
leave the ghost log as it is, and the layout body leaves the stored sample rate
and block size alone. -/
def Virtuals.Passive (V : Virtuals) : Prop :=
  (∀ cause s, (V.channelLayoutChanged cause s).calls = s.calls ∧
    (V.channelLayoutChanged cause s).originalSampleRate = s.originalSampleRate ∧
    (V.channelLayoutChanged cause s).originalBlockSize = s.originalBlockSize) ∧
  (∀ sampleRate blockSize s, (V.prepare sampleRate blockSize s).calls = s.calls)

/-- The bodies of the virtual methods only add to the ghost log: whatever they
do, also by calling back into the container, the calls logged before are still
there, followed by the calls made meanwhile. -/
def Virtuals.Appends (V : Virtuals) : Prop :=
  (∀ cause s, ∃ during, (V.channelLayoutChanged cause s).calls = s.calls ++ during) ∧
  (∀ sampleRate blockSize s, ∃ during,
    (V.prepare sampleRate blockSize s).calls = s.calls ++ during)

/-- The bodies of the virtual methods return with the guard flag as they found
it. -/
def Virtuals.KeepFlag (V : Virtuals) : Prop :=
  (∀ cause s, (V.channelLayoutChanged cause s).channelRecursionProtection
      = s.channelRecursionProtection) ∧
  (∀ sampleRate blockSize s, (V.prepare sampleRate blockSize s).channelRecursionProtection
      = s.channelRecursionProtection)

namespace NodeContainer

/-- Appends a call to the ghost log. -/
def record (s : NodeContainer) (c : Call) : NodeContainer :=
  { s with calls := s.calls ++ [c] }

/-- The tail shared by both branches of `updateChannels`:
`if (originalSampleRate > 0.0) prepare(originalSampleRate, originalBlockSize);` -/
def prepareIfReady (V : Virtuals) (s : NodeContainer) : NodeContainer :=
  if 0 < s.originalSampleRate then
    V.prepare s.originalSampleRate s.originalBlockSize
      (s.record (Call.prepare s.originalSampleRate s.originalBlockSize))
  else s

/-- The full re-derivation in the words of the specification: the container's
layout algorithm is called with no cause node; then, if a sample rate has been
established, `prepare` is run again with the stored sample rate and block
size. -/
def fullRederivation (V : Virtuals) (s : NodeContainer) : NodeContainer :=
  let afterLayout := V.channelLayoutChanged none (s.record (Call.channelLayoutChanged none))
  if 0 < afterLayout.originalSampleRate then
    V.prepare afterLayout.originalSampleRate afterLayout.originalBlockSize
      (afterLayout.record
        (Call.prepare afterLayout.originalSampleRate afterLayout.originalBlockSize))
  else afterLayout

/-- `NodeContainer::updateChannels(v, id)`.  `getNodeForValueTree` is the lookup
of the root network; `v.getParent() == getNodeTree()` holds exactly for the
children of the node tree.  The `ScopedValueSetter` stores the flag's value,
sets it and writes the stored value back when the block is left. -/
def updateChannels (V : Virtuals) (getNodeForValueTree : Nat → Option NodeBase)
    (s : NodeContainer) (v : Nat) : NodeContainer :=
  if v = s.valueTree then
    let s1 := V.channelLayoutChanged none (s.record (Call.channelLayoutChanged none))
    prepareIfReady V s1
  else if v ∈ s.nodeTree then
    if s.channelRecursionProtection then s
    else
      let childNode := (getNodeForValueTree v).map NodeBase.id
      let originalValue := s.channelRecursionProtection
      let s1 := { s with channelRecursionProtection := true }
      let s2 := V.channelLayoutChanged childNode (s1.record (Call.channelLayoutChanged childNode))
      let s3 := prepareIfReady V s2
      { s3 with channelRecursionProtection := originalValue }
  else s

/-- `NodeContainer::nodeAddedOrRemoved(child, wasAdded)`. -/
def nodeAddedOrRemoved (V : Virtuals) (getNodeForValueTree : Nat → Option NodeBase)
    (s : NodeContainer) (child : Nat) (wasAdded : Bool) : NodeContainer :=
  match getNodeForValueTree child with
  | none => s
  | some nodeToProcess =>
    if wasAdded then
      if containsNode s.nodes nodeToProcess then s
      else
        let insertIndex := ValueTree.indexOf s.nodeTree child
        let s1 := { s with nodes := insertNode s.nodes insertIndex nodeToProcess }
        updateChannels V getNodeForValueTree s1 s1.valueTree
    else
      let s1 := { s with nodes := removeAllInstancesOf s.nodes nodeToProcess }
      updateChannels V getNodeForValueTree s1 s1.valueTree

/-- The loop of `parameterAddedOrRemoved` that removes the first parameter
whose `data` is `child`. -/
def removeParameterFor (child : Nat) : List Parameter → List Parameter
  | [] => []
  | p :: rest => if p.data = child then rest else p :: removeParameterFor child rest

/-- `NodeContainer::parameterAddedOrRemoved(child, wasAdded)`; `newParameterId`
is the id of the `MacroParameter` constructed for `child`, which `addParameter`
appends to the parameter list. -/
def parameterAddedOrRemoved (s : NodeContainer) (child : Nat) (wasAdded : Bool)
    (newParameterId : String) : NodeContainer :=
  if wasAdded then
    { s with parameters := s.parameters ++ [{ id := newParameterId, data := child }] }
  else
    { s with parameters := removeParameterFor child s.parameters }

/-- The `var newValue` handed to `assign`, as far as `assign` looks at it. -/
inductive Var where
  /-- an object that is a `NodeBase`: its tree entity, and whether that entity
  is the container's node tree or one of its ancestors (then `addChild`
  refuses it) -/
  | node (tree : Nat) (holdsNodeTree : Bool)
  /-- any value whose object is not a `NodeBase` -/
  | other
deriving DecidableEq, Repr

/-- `NodeContainer::assign(index, newValue)`, on the children of the node
tree.  `tree.getParent().removeChild(tree)` changes this child list exactly when
`tree` is one of these children. -/
def assign (s : NodeContainer) (index : Int) (newValue : Var) : NodeContainer :=
  match newValue with
  | Var.node tree holdsNodeTree =>
    let detached := ValueTree.removeChild s.nodeTree tree
    if holdsNodeTree then { s with nodeTree := detached }
    else { s with nodeTree := ValueTree.addChild detached tree index }
  | Var.other => { s with nodeTree := ValueTree.removeChildAt s.nodeTree index }

end NodeContainer

/-- The virtual methods of a `MultiChannelNode`: the layout algorithm on the
container's children; `prepare` (not part of this file) leaves the fields
modelled here alone. -/
def MultiChannelNode.virtuals : Virtuals where
  channelLayoutChanged := fun cause s =>
    { s with nodes := (MultiChannelNode.channelLayoutChanged s.numChannels s.nodes cause).nodes }
  prepare := fun _ _ s => s

/-- Virtual methods whose layout body, when entered, first has `updateChannels`
invoked again on the same container for the entity `w` (with the virtual
methods `Vin`) and then goes on as `V`: the re-entrant invocation that the
synchronous channel listener makes when a channel count is written during a
recompute. -/
def Virtuals.reenterOnLayout (V Vin : Virtuals) (getNodeForValueTree : Nat → Option NodeBase)
    (w : Nat) : Virtuals where
  channelLayoutChanged := fun cause t =>
    V.channelLayoutChanged cause (NodeContainer.updateChannels Vin getNodeForValueTree t w)
  prepare := V.prepare

/-! ### A concrete container, used to instantiate the statements -/

namespace Examples

/-- A flexible node with tree entity 11. -/
def nodeA : NodeBase := { id := 1, valueTree := 11, numChannels := 0, fixChannelAmount := false }

/-- A flexible node with tree entity 12. -/
def nodeB : NodeBase := { id := 2, valueTree := 12, numChannels := 0, fixChannelAmount := false }

/-- A node with two fixed channels and tree entity 13. -/
def nodeC : NodeBase := { id := 3, valueTree := 13, numChannels := 2, fixChannelAmount := true }

/-- The lookup of the network that knows the three nodes. -/
def getNodeForValueTree (v : Nat) : Option NodeBase :=
  [nodeA, nodeB, nodeC].find? (fun n => n.valueTree == v)

/-- A prepared four-channel container with tree entity 100 holding `nodeA` and
`nodeB`. -/
def container : NodeContainer :=
  { valueTree := 100, nodeTree := [11, 12], parameterTree := [], numChannels := 4,
    nodes := [nodeA, nodeB], parameters := [], channelRecursionProtection := false,
    originalSampleRate := 44100, originalBlockSize := 512, calls := [] }

end Examples

/-! ## SplitNode -/

/-- The samples of a `ProcessData`: one list of samples per channel. -/
abbrev Buffer (α : Type) := List (List α)

/-- A child of a split container as its `process` and `processSingle` see it:
both work in place on the buffer (frame) they are given. -/
structure ChildNode (α : Type) where
  id : Nat
  process : Buffer α → Buffer α
  processSingle : List α → Nat → List α

/-- `ProcessData::operator+=`: channel by channel, sample by sample. -/
def Buffer.add {α : Type} [Add α] (data wd : Buffer α) : Buffer α :=
  List.zipWith (fun c d => List.zipWith (fun x y => x + y) c d) data wd

/-- `FloatVectorOperations::add(dest, src, num)`: the first `num` values of
`dest` get the values of `src` added. -/
def FloatVectorOperations.add {α : Type} [Add α] (dest src : List α) (num : Nat) : List α :=
  List.zipWith (fun x y => x + y) (dest.take num) (src.take num) ++ dest.drop num

/-- The buffer `n·X`: every sample of `X` taken `n` times. -/
def Buffer.scale {α : Type} [AddMonoid α] (n : Nat) (X : Buffer α) : Buffer α :=
  X.map (fun channel => channel.map (fun x => n • x))

/-- The buffer that holds a single frame: one sample per channel. -/
def Buffer.ofFrame {α : Type} (frame : List α) : Buffer α :=
  frame.map (fun x => [x])

namespace SplitNode

/-- The variables of the loop in `SplitNode::process`, with the ghost log of the
children whose `process` ran. -/
structure ProcessState (α : Type) where
  data : Buffer α
  isFirst : Bool
  invoked : List Nat

/-- One iteration of the loop in `SplitNode::process`; `original` is the copy
taken before the loop, `original.copyTo(splitBuffer, 1)` is a fresh copy of it. -/
def processStep {α : Type} [Add α] (original : Buffer α) (st : ProcessState α)
    (n : ChildNode α) : ProcessState α :=
  if st.isFirst then
    { data := n.process st.data, isFirst := false, invoked := st.invoked ++ [n.id] }
  else
    let wd := n.process original
    { data := st.data.add wd, isFirst := false, invoked := st.invoked ++ [n.id] }

/-- `SplitNode::process(data)`: the buffer after the call and the children that
were invoked. -/
def process {α : Type} [Add α] (isBypassed : Bool) (nodes : List (ChildNode α))
    (data : Buffer α) : Buffer α × List Nat :=
  if isBypassed then (data, [])
  else
    let original := data
    let st := nodes.foldl (processStep original) { data := data, isFirst := true, invoked := [] }
    (st.data, st.invoked)

/-- The variables of the loop in `SplitNode::processSingle`. -/
structure SingleState (α : Type) where
  frameData : List α
  isFirst : Bool
  invoked : List Nat

/-- One iteration of the loop in `SplitNode::processSingle`; `original` holds
the first `numChannels` values of the frame. -/
def processSingleStep {α : Type} [Add α] (original : List α) (numChannels : Nat)
    (st : SingleState α) (n : ChildNode α) : SingleState α :=
  if st.isFirst then
    { frameData := n.processSingle st.frameData numChannels, isFirst := false,
      invoked := st.invoked ++ [n.id] }
  else
    let wb := n.processSingle original numChannels
    { frameData := FloatVectorOperations.add st.frameData wb numChannels, isFirst := false,
      invoked := st.invoked ++ [n.id] }

/-- `SplitNode::processSingle(frameData, numChannels)`: the frame after the call
and the children that were invoked. -/
def processSingle {α : Type} [Add α] (isBypassed : Bool) (nodes : List (ChildNode α))
    (frameData : List α) (numChannels : Nat) : List α × List Nat :=
  if isBypassed then (frameData, [])
  else
    let original := frameData.take numChannels
    let st := nodes.foldl (processSingleStep original numChannels)
      { frameData := frameData, isFirst := true, invoked := [] }
    (st.frameData, st.invoked)

/-- The identity child used for the conservation test: it leaves every buffer
and frame as it is. -/
def identityChild (α : Type) (id : Nat) : ChildNode α :=
  { id := id, process := fun b => b, processSingle := fun f _ => f }

end SplitNode

/-! ## MacroParameter connections -/

/-- `juce::Range<double>`. -/
structure Range where
  start : ℚ
  stop : ℚ
deriving DecidableEq, Repr

/-- `juce::Range::contains(position)`: `start <= position && position < end`. -/
def Range.contains (r : Range) (position : ℚ) : Bool :=
  decide (r.start ≤ position) && decide (position < r.stop)

/-- `juce::NormalisableRange<double>`. -/
structure NormalisableRange where
  start : ℚ
  stop : ℚ
  interval : ℚ := 0
  skew : ℚ := 1
deriving DecidableEq, Repr

/-- `NormalisableRange::getRange()`. -/
def NormalisableRange.getRange (r : NormalisableRange) : Range := ⟨r.start, r.stop⟩

/-- `juce::jlimit(lowerLimit, upperLimit, valueToConstrain)` on `double`. -/
def jlimit (lowerLimit upperLimit valueToConstrain : ℚ) : ℚ :=
  if valueToConstrain < lowerLimit then lowerLimit
  else if upperLimit < valueToConstrain then upperLimit else valueToConstrain

/-- The numeric helpers that are defined outside this file and are taken as
given: `RangeHelpers::isIdentity`, `NormalisableRange::convertTo0to1` and the
value mapping that `DspHelpers::wrapIntoConversionLambda` applies for a
converter id, a connection range and an inversion flag. -/
structure DspHelpers where
  isIdentity : NormalisableRange → Bool
  convertTo0to1 : NormalisableRange → ℚ → ℚ
  conversion : String → NormalisableRange → Bool → ℚ → ℚ

/-- Modelled from the spec: the identifier `PropertyIds::Bypassed`, the sentinel
parameter id that targets the bypass state of a node. -/
def PropertyIds.Bypassed : String := "Bypassed"

/-- Modelled from the spec: the identifiers of the combination operators
(`OperatorIds`, declared outside this file); the default one replaces. -/
def OperatorIds.SetValue : String := "SetValue"

/-- Modelled from the spec: the operator that accumulates. -/
def OperatorIds.Add : String := "Add"

/-- Modelled from the spec: the operator that scales. -/
def OperatorIds.Multiply : String := "Multiply"

/-- Modelled from the spec: the default converter id of a connection. -/
def ConverterIds.Identity : String := "Identity"

/-- The properties of a connection's tree entity `d`. -/
structure ConnectionData where
  nodeId : String
  parameterId : String
  converter : String := ""
  opType : String := ""
  range : NormalisableRange
  inverted : Bool := false
deriving DecidableEq, Repr

/-- A pointer to a `NodeBase::Parameter`: the node object that owns the
parameter and the parameter's id.  The parameter lives as long as its node. -/
structure ParameterRef where
  node : Nat
  id : String
deriving DecidableEq, Repr

/-- An operation performed on a target (ghost log entry). -/
inductive Effect where
  | setBypassed (node : Nat) (shouldBeBypassed : Bool)
  | addModulationValue (p : ParameterRef) (value : ℚ)
  | multiplyModulationValue (p : ParameterRef) (value : ℚ)
  | setValueAndStoreAsync (p : ParameterRef) (value : ℚ)
deriving DecidableEq, Repr

/-- The Effect's target node object. -/
def Effect.target : Effect → Nat
  | Effect.setBypassed n _ => n
  | Effect.addModulationValue p _ => p.node
  | Effect.multiplyModulationValue p _ => p.node
  | Effect.setValueAndStoreAsync p _ => p.node

/-- The nodes that still exist and the operations performed on targets so far,
oldest first. -/
structure World where
  liveNodes : List Nat
  effects : List Effect
deriving DecidableEq, Repr

/-- Performs an operation on a target. -/
def World.perform (w : World) (e : Effect) : World :=
  { w with effects := w.effects ++ [e] }

/-- Destroys a node object (and with it the parameters it owns). -/
def World.destroy (w : World) (node : Nat) : World :=
  { w with liveNodes := w.liveNodes.filter (fun n => n != node) }

/-- `DspHelpers::ParameterCallback`, a `std::function<void(double)>`: run on a
value in a world.  `none` is undefined behaviour: a member call through a
pointer whose object does not exist. -/
abbrev ParameterCallback := ℚ → World → Option World

namespace MacroParameter

/-- The members of `MacroParameter::Connection`. -/
structure Connection where
  nodeToBeBypassed : Option Nat
  rangeMultiplerForBypass : ℚ
  p : Option ParameterRef
  conversion : String
  opType : String
  connectionRange : NormalisableRange
  inverted : Bool
deriving DecidableEq, Repr

/-- `Connection::Connection(parent, d)`.  `network` are the nodes of the root
network, `get(nodeId)` finds the node with that id; `originalRange` is the range
of `d.getParent().getParent()`, the tree of the owning macro parameter.  The
property syncer `opSyncer` that the constructor registers lives only as long as
the connection object and is not part of the state modelled here. -/
def Connection.create (network : List NodeBase) (originalRange : NormalisableRange)
    (d : ConnectionData) : Connection :=
  let base : Connection :=
    { nodeToBeBypassed := none, rangeMultiplerForBypass := 1, p := none,
      conversion := if d.converter ≠ "" then d.converter else ConverterIds.Identity,
      opType := if d.opType ≠ "" then d.opType else OperatorIds.SetValue,
      connectionRange := d.range, inverted := d.inverted }
  match network.find? (fun n => n.nodeId == d.nodeId) with
  | none => base
  | some targetNode =>
    if d.parameterId = PropertyIds.Bypassed then
      { base with nodeToBeBypassed := some targetNode.id,
                  rangeMultiplerForBypass := jlimit 1 9000 originalRange.stop }
    else
      match targetNode.parameters.find? (fun q => q.id == d.parameterId) with
      | none => base
      | some q => { base with p := some { node := targetNode.id, id := q.id } }

/-- Modelled from the spec: `Connection::isValid` is declared outside this
file; a connection is valid when its target was resolved, to a node to be
bypassed or to a parameter. -/
def Connection.isValid (c : Connection) : Bool :=
  c.nodeToBeBypassed.isSome || c.p.isSome

/-- A member function of `NodeBase::Parameter` bound to the raw pointer
`p.get()`: the call is made without any check and is undefined when no object
is behind the pointer. -/
def bindParameter (op : ParameterRef → ℚ → Effect) (p : Option ParameterRef) :
    ParameterCallback :=
  fun value w =>
    match p with
    | none => none
    | some q => if q.node ∈ w.liveNodes then some (w.perform (op q value)) else none

/-- Modelled from the spec: `DspHelpers::wrapIntoConversionLambda` (defined
outside this file) remaps the normalised input through the connection's range,
inversion and converter and hands the result to `f`. -/
def wrapIntoConversionLambda (H : DspHelpers) (conversion : String) (f : ParameterCallback)
    (connectionRange : NormalisableRange) (inverted : Bool) : ParameterCallback :=
  fun newValue w => f (H.conversion conversion connectionRange inverted newValue) w

/-- `Connection::createCallbackForNormalisedInput()`. -/
def Connection.createCallbackForNormalisedInput (H : DspHelpers) (c : Connection) :
    ParameterCallback :=
  match c.nodeToBeBypassed with
  | some n =>
    let r := c.connectionRange.getRange
    let m := c.rangeMultiplerForBypass
    if c.inverted then
      fun newValue w =>
        if n ∈ w.liveNodes then some (w.perform (Effect.setBypassed n (r.contains (newValue * m))))
        else some w
    else
      fun newValue w =>
        if n ∈ w.liveNodes then some (w.perform (Effect.setBypassed n (!r.contains (newValue * m))))
        else some w
  | none =>
    let f : ParameterCallback :=
      if c.opType = OperatorIds.Add then bindParameter Effect.addModulationValue c.p
      else if c.opType = OperatorIds.Multiply then bindParameter Effect.multiplyModulationValue c.p
      else bindParameter Effect.setValueAndStoreAsync c.p
    wrapIntoConversionLambda H c.conversion f c.connectionRange c.inverted

/-- The loop `for (auto& cb : connectionCallbacks) cb(value);`. -/
def callAll : List ParameterCallback → ParameterCallback
  | [], _, w => some w
  | cb :: rest, value, w =>
    match cb value w with
    | none => none
    | some w1 => callAll rest value w1

/-- The first loop of `rebuildCallback`: the connection of every child of the
connection tree, kept when it is valid. -/
def validConnections (network : List NodeBase) (inputRange : NormalisableRange) :
    List ConnectionData → List Connection
  | [] => []
  | c :: rest =>
    let newC := Connection.create network inputRange c
    if newC.isValid then newC :: validConnections network inputRange rest
    else validConnections network inputRange rest

/-- What `rebuildCallback` leaves behind: the parsed input range, the local
array `connections` (ghost) and the installed callback. -/
structure Rebuilt where
  inputRange : NormalisableRange
  connections : List Connection
  callback : ParameterCallback

/-- Modelled from the spec: `NodeBase::Parameter::setCallback` is defined outside
this file; a parameter whose callback is set to the empty function `{}` has a
callback that does nothing. -/
def emptyCallback : ParameterCallback := fun _ w => some w

/-- `MacroParameter::rebuildCallback()`; `inputRange` is the range read from the
parameter's tree `data`, `cTree` are the children of its `Connections` child.
`setCallback({})` installs `emptyCallback`. -/
def rebuildCallback (H : DspHelpers) (network : List NodeBase) (inputRange : NormalisableRange)
    (cTree : List ConnectionData) : Rebuilt :=
  let connections := validConnections network inputRange cTree
  if 0 < connections.length then
    let connectionCallbacks := connections.map (Connection.createCallbackForNormalisedInput H)
    if H.isIdentity inputRange then
      { inputRange := inputRange, connections := connections,
        callback := fun newValue w => callAll connectionCallbacks newValue w }
    else
      let cp := inputRange
      { inputRange := inputRange, connections := connections,
        callback := fun newValue w =>
          let normedValue := H.convertTo0to1 cp newValue
          callAll connectionCallbacks normedValue w }
  else
    { inputRange := inputRange, connections := connections, callback := emptyCallback }

/-- The connections the specification keeps: the target node id resolves in
the graph and the target parameter id is the bypass sentinel or the id of one
of that node's parameters. -/
def targetResolves (network : List NodeBase) (d : ConnectionData) : Bool :=
  match network.find? (fun n => n.nodeId == d.nodeId) with
  | none => false
  | some targetNode =>
    d.parameterId == PropertyIds.Bypassed || targetNode.parameters.any (fun q => q.id == d.parameterId)

/-- The node object behind the target of a connection. -/
def Connection.targetNode (c : Connection) : Option Nat :=
  match c.nodeToBeBypassed with
  | some n => some n
  | none => c.p.map ParameterRef.node

/-- The operation the specification ascribes to a connection for a normalised
input: a bypass connection sets or clears bypass by the range test of the input
times the multiplier, a parameter connection applies the remapped input with
the operation of its operator. -/
def Connection.operation (H : DspHelpers) (c : Connection) (value : ℚ) : Option Effect :=
  match c.nodeToBeBypassed with
  | some n =>
    let inRange := c.connectionRange.getRange.contains (value * c.rangeMultiplerForBypass)
    some (Effect.setBypassed n (if c.inverted then inRange else !inRange))
  | none =>
    match c.p with
    | none => none
    | some q =>
      let remapped := H.conversion c.conversion c.connectionRange c.inverted value
      some (if c.opType = OperatorIds.Add then Effect.addModulationValue q remapped
        else if c.opType = OperatorIds.Multiply then Effect.multiplyModulationValue q remapped
        else Effect.setValueAndStoreAsync q remapped)

/-- A macro parameter object between two calls: the range and the connection
children stored in its tree `data`, and the members `inputRange` and the
installed callback, which `rebuildCallback` overwrites. -/
structure State where
  dataRange : NormalisableRange
  connectionTree : List ConnectionData
  inputRange : NormalisableRange
  callback : ParameterCallback

/-- `MacroParameter::rebuildCallback()` as a step on the parameter object: the
tree is only read, `inputRange` and the callback are assigned. -/
def State.rebuildCallback (H : DspHelpers) (network : List NodeBase) (st : State) : State :=
  let r := MacroParameter.rebuildCallback H network st.dataRange st.connectionTree
  { st with inputRange := r.inputRange, callback := r.callback }

/-- Invokes a callback with a sequence of inputs, one after the other. -/
def runInputs (cb : ParameterCallback) : List ℚ → World → Option World
  | [], w => some w
  | x :: rest, w =>
    match cb x w with
    | none => none
    | some w1 => runInputs cb rest w1

end MacroParameter

/-! ### A concrete graph with a macro parameter, used to instantiate the statements -/

namespace Examples

/-- Linear range helpers: the range [0,1] is the identity, values are mapped
linearly, an inverted connection mirrors the input. -/
def helpers : DspHelpers where
  isIdentity := fun r => decide (r.start = 0 ∧ r.stop = 1)
  convertTo0to1 := fun r x => (x - r.start) / (r.stop - r.start)
  conversion := fun _ r inverted x => r.start + (if inverted then 1 - x else x) * (r.stop - r.start)

/-- The node `osc` (object 1) with the parameters `Gain` and `Freq`. -/
def osc : NodeBase :=
  { id := 1, valueTree := 11, numChannels := 2, fixChannelAmount := false, nodeId := "osc",
    parameters := [{ id := "Gain", data := 21 }, { id := "Freq", data := 22 }] }

/-- The node `fx` (object 2) without parameters. -/
def fx : NodeBase :=
  { id := 2, valueTree := 12, numChannels := 2, fixChannelAmount := false, nodeId := "fx" }

/-- The nodes of the network. -/
def network : List NodeBase := [osc, fx]

/-- A connection to the bypass state of `fx`. -/
def bypassFx : ConnectionData :=
  { nodeId := "fx", parameterId := "Bypassed", range := { start := 0, stop := 1 } }

/-- A connection to the parameter `Gain` of `osc`. -/
def gainOsc : ConnectionData :=
  { nodeId := "osc", parameterId := "Gain", range := { start := 0, stop := 1 } }

/-- A connection to a node that does not exist. -/
def lostNode : ConnectionData :=
  { nodeId := "gone", parameterId := "Gain", range := { start := 0, stop := 1 } }

/-- A connection to a parameter that `osc` does not have. -/
def lostParameter : ConnectionData :=
  { nodeId := "osc", parameterId := "Cutoff", range := { start := 0, stop := 1 } }

/-- The world in which both nodes exist and nothing has happened yet. -/
def world : World := { liveNodes := [1, 2], effects := [] }

end Examples

end scriptnode

/-! ## AudioTimelineObject (`hi_components/floating_layout/BackendPanelTypes.cpp`) -/

namespace hise

namespace AudioTimelineObject

/-- One `FloatVectorOperations::copy(buffer.getWritePointer(ch, targetOffset),
content.getReadPointer(ch, contentOffset), numToCopy)`; the same sample range is
copied for channel 0 and channel 1. -/
structure Copy where
  targetOffset : Int
  contentOffset : Int
  numToCopy : Int
deriving DecidableEq, Repr

/-- `AudioTimelineObject::process`, as far as the copied sample ranges go:
`bufferNumSamples` is `buffer.getNumSamples()`, `contentNumSamples` is
`content.getNumSamples()` and `sampleOffset` the value of
`clock->getSamplesDelta(ppqOffsetFromStart)`.  `none` when nothing is copied. -/
def process (bufferNumSamples contentNumSamples sampleOffset : Int) : Option Copy :=
  if sampleOffset < 0 then
    let numToCopy := bufferNumSamples + sampleOffset
    let targetOffset := -sampleOffset
    let contentOffset := 0
    if 0 < numToCopy then
      some { targetOffset := targetOffset, contentOffset := contentOffset, numToCopy := numToCopy }
    else none
  else
    let contentOffset := sampleOffset
    let targetOffset := 0
    let numToCopy := scriptnode.jmin bufferNumSamples (contentNumSamples - contentOffset)
    if 0 < numToCopy then
      some { targetOffset := targetOffset, contentOffset := contentOffset, numToCopy := numToCopy }
    else none

/-- The samples written lie inside an output buffer of `bufferNumSamples`
samples. -/
def Copy.insideBuffer (c : Copy) (bufferNumSamples : Int) : Bool :=
  decide (0 ≤ c.targetOffset) && decide (c.targetOffset + c.numToCopy ≤ bufferNumSamples)

/-- The samples read lie inside a content of `contentNumSamples` samples. -/
def Copy.insideContent (c : Copy) (contentNumSamples : Int) : Bool :=
  decide (0 ≤ c.contentOffset) && decide (c.contentOffset + c.numToCopy ≤ contentNumSamples)

end AudioTimelineObject

end hise

/-! # Theorems -/

namespace scriptnode

/-! ## MultiChannelNode: channel distribution -/

namespace MultiChannelNode

theorem jmax_zero_jmin_of_le {a per : Int} (h0 : 0 ≤ per) (h : per ≤ a) :
    jmax 0 (jmin a per) = per := by
  unfold jmax jmin
  split_ifs <;> omega

theorem jmax_zero_jmin_bounds (a per : Int) :
    0 ≤ jmax 0 (jmin a per) ∧ jmax 0 (jmin a per) ≤ max 0 per := by
  unfold jmax jmin
  split_ifs <;> omega

theorem lockedPass_eq (nodes : List NodeBase) (a k : Int) :
    lockedPass nodes (a, k + nodes.length) = (a - fixedChannels nodes, k + numFlexible nodes) := by
  induction nodes generalizing a k with
  | nil => simp [lockedPass, fixedChannels, numFlexible]
  | cons n rest ih =>
    by_cases hf : n.hasFixChannelAmount = true
    · have h1 : k + ((n :: rest).length : Int) - 1 = k + rest.length := by
        simp only [List.length_cons]; push_cast; ring
      simp only [lockedPass, hf, if_true, h1, ih]
      simp [fixedChannels, numFlexible, hf, List.filter_cons]
      ring
    · have h1 : k + ((n :: rest).length : Int) = (k + 1) + rest.length := by
        simp only [List.length_cons]; push_cast; ring
      simp only [lockedPass, hf, h1, ih]
      simp [fixedChannels, numFlexible, hf, List.filter_cons]
      ring

theorem totalChannels_cons (n : NodeBase) (rest : List NodeBase) :
    totalChannels (n :: rest) = n.numChannels + totalChannels rest := by
  simp [totalChannels, NodeBase.getNumChannelsToProcess]

theorem fixedChannels_cons_fix (n : NodeBase) (rest : List NodeBase)
    (hf : n.hasFixChannelAmount = true) :
    fixedChannels (n :: rest) = n.numChannels + fixedChannels rest := by
  simp [fixedChannels, List.filter_cons, hf, NodeBase.getNumChannelsToProcess]

theorem fixedChannels_cons_flex (n : NodeBase) (rest : List NodeBase)
    (hf : ¬ n.hasFixChannelAmount = true) :
    fixedChannels (n :: rest) = fixedChannels rest := by
  simp [fixedChannels, List.filter_cons, hf]

theorem numFlexible_cons_fix (n : NodeBase) (rest : List NodeBase)
    (hf : n.hasFixChannelAmount = true) :
    numFlexible (n :: rest) = numFlexible rest := by
  simp [numFlexible, List.filter_cons, hf]

theorem numFlexible_cons_flex (n : NodeBase) (rest : List NodeBase)
    (hf : ¬ n.hasFixChannelAmount = true) :
    numFlexible (n :: rest) = numFlexible rest + 1 := by
  simp [numFlexible, List.filter_cons, hf]

theorem evenly_cons (numPerNode : Int) (n : NodeBase) (rest : List NodeBase) :
    evenly numPerNode (n :: rest)
      = (if n.hasFixChannelAmount then n else n.setNumChannels numPerNode)
          :: evenly numPerNode rest := by
  simp [evenly]

theorem totalChannels_evenly (numPerNode : Int) (nodes : List NodeBase) :
    totalChannels (evenly numPerNode nodes) = fixedChannels nodes + numPerNode * numFlexible nodes := by
  induction nodes with
  | nil => simp [evenly, totalChannels, fixedChannels, numFlexible]
  | cons n rest ih =>
    by_cases hf : n.hasFixChannelAmount = true
    · rw [evenly_cons, totalChannels_cons, ih, fixedChannels_cons_fix n rest hf,
        numFlexible_cons_fix n rest hf]
      simp [hf]; ring
    · rw [evenly_cons, totalChannels_cons, ih, fixedChannels_cons_flex n rest hf,
        numFlexible_cons_flex n rest hf]
      simp [hf, NodeBase.setNumChannels]; ring

theorem distributePass_none (numPerNode : Int) (h0 : 0 ≤ numPerNode) (nodes : List NodeBase)
    (avail : Int) (h : numPerNode * numFlexible nodes ≤ avail) :
    (distributePass none numPerNode nodes avail).nodes = evenly numPerNode nodes := by
  induction nodes generalizing avail with
  | nil => simp [distributePass, evenly]
  | cons n rest ih =>
    by_cases hf : n.hasFixChannelAmount = true
    · have h1 : numPerNode * numFlexible rest ≤ avail := by
        simpa [numFlexible, hf, List.filter_cons] using h
      have := ih avail h1
      simp only [evenly] at this
      simp [distributePass, evenly, hf, this]
    · have hk : (numFlexible (n :: rest) : Int) = numFlexible rest + 1 := by
        simp [numFlexible, hf, List.filter_cons]
      rw [hk] at h
      have hk0 : (0 : Int) ≤ numFlexible rest := Int.natCast_nonneg _
      have hle : numPerNode ≤ avail := by nlinarith
      have hj := jmax_zero_jmin_of_le h0 hle
      have h1 : numPerNode * numFlexible rest ≤ avail - numPerNode := by nlinarith
      have := ih (avail - numPerNode) h1
      simp only [evenly] at this
      simp [distributePass, evenly, hf, hj, NodeBase.setNumChannels,
        NodeBase.getNumChannelsToProcess, this]

theorem numFlexible_le_length (nodes : List NodeBase) : numFlexible nodes ≤ nodes.length := by
  unfold numFlexible; exact List.length_filter_le _ _

/-- With no cause node, enough channels for the fixed children and at least
one flexible child, the layout gives every flexible child the even share. -/
theorem channelLayoutChanged_none (C : Int) (nodes : List NodeBase)
    (hF : fixedChannels nodes ≤ C) (hk : 1 ≤ numFlexible nodes) :
    (channelLayoutChanged C nodes none).nodes
      = evenly (Int.tdiv (C - fixedChannels nodes) (numFlexible nodes)) nodes := by
  have hlen : nodes.length ≠ 0 := by
    have := numFlexible_le_length nodes; omega
  have hp := lockedPass_eq nodes C 0
  simp only [zero_add] at hp
  have hkpos : (0 : Int) < numFlexible nodes := by exact_mod_cast hk
  unfold channelLayoutChanged
  simp only [hlen, if_false, hp, hkpos, if_true]
  have hnn : 0 ≤ C - fixedChannels nodes := by omega
  have hdiv : Int.tdiv (C - fixedChannels nodes) (numFlexible nodes)
      = (C - fixedChannels nodes) / (numFlexible nodes : Int) :=
    Int.tdiv_eq_ediv hnn (le_of_lt hkpos)
  apply distributePass_none
  · rw [hdiv]; exact Int.ediv_nonneg hnn (le_of_lt hkpos)
  · rw [hdiv]; exact Int.ediv_mul_le _ (ne_of_gt hkpos)

theorem tdiv_le_of_nonneg_sub {C F k : Int} (hC : 0 ≤ C) (hF : 0 ≤ F) (hk : 0 < k) :
    max 0 (Int.tdiv (C - F) k) ≤ C := by
  rcases le_or_lt 0 (C - F) with h | h
  · rw [Int.tdiv_eq_ediv h (le_of_lt hk)]
    have h1 : (C - F) / k ≤ C - F := Int.ediv_le_self _ h
    have h2 : 0 ≤ (C - F) / k := Int.ediv_nonneg h (le_of_lt hk)
    rw [max_eq_right h2]; omega
  · have h1 : 0 ≤ Int.tdiv (-(C - F)) k := Int.tdiv_nonneg (by omega) (le_of_lt hk)
    rw [Int.neg_tdiv] at h1
    have h2 : Int.tdiv (C - F) k ≤ 0 := by omega
    rw [max_eq_left h2]; exact hC

theorem fixedChannels_nonneg (nodes : List NodeBase)
    (h : ∀ n ∈ nodes, 0 ≤ n.getNumChannelsToProcess) : 0 ≤ fixedChannels nodes := by
  unfold fixedChannels
  apply List.sum_nonneg
  intro x hx
  simp only [List.mem_map, List.mem_filter] at hx
  obtain ⟨n, ⟨hn, _⟩, rfl⟩ := hx
  exact h n hn

theorem distributePass_calls_bounds (cause : Option Nat) (numPerNode : Int)
    (nodes : List NodeBase) (avail : Int) :
    ∀ c ∈ (distributePass cause numPerNode nodes avail).setNumChannelsCalls,
      0 ≤ c.2 ∧ c.2 ≤ max 0 numPerNode := by
  induction nodes generalizing avail with
  | nil => simp [distributePass]
  | cons n rest ih =>
    intro c hc
    unfold distributePass at hc
    split_ifs at hc with hf hcause
    · exact ih _ c hc
    · simp only [List.mem_cons] at hc
      rcases hc with rfl | hc
      · exact jmax_zero_jmin_bounds avail numPerNode
      · exact ih _ c hc
    · exact ih _ c hc

/-- C1 (as stated) fails: three channels and two flexible children, nothing
fixed (so C = 3 >= F = 0) and no cause; both children get 3 / 2 = 1 channel and
the sum of the children's channels is 2, not 3. -/
theorem C1_sum_equals_total_counterexample :
    ¬ (fixedChannels [{ id := 1, valueTree := 1, numChannels := 0, fixChannelAmount := false },
                      { id := 2, valueTree := 2, numChannels := 0, fixChannelAmount := false }] ≤ 3 →
        totalChannels (channelLayoutChanged 3
          [{ id := 1, valueTree := 1, numChannels := 0, fixChannelAmount := false },
           { id := 2, valueTree := 2, numChannels := 0, fixChannelAmount := false }] none).nodes = 3) := by
  decide

/-- C1 (amended): with total channel count C, fixed requirements summing to
F <= C, at least one flexible child whose number divides C - F, and no cause
node, the children's channel counts after `channelLayoutChanged` sum to C. -/
theorem C1_sum_equals_total_when_divisible (C : Int) (nodes : List NodeBase)
    (hF : fixedChannels nodes ≤ C) (hk : 1 ≤ numFlexible nodes)
    (hdvd : (numFlexible nodes : Int) ∣ C - fixedChannels nodes) :
    totalChannels (channelLayoutChanged C nodes none).nodes = C := by
  rw [channelLayoutChanged_none C nodes hF hk, totalChannels_evenly,
    Int.tdiv_eq_ediv_of_dvd hdvd, Int.ediv_mul_cancel hdvd]
  ring

/-- C1 (amended), instance: six channels, one fixed child with two channels and two
flexible children. -/
theorem C1_sum_equals_total_when_divisible_witness :
    fixedChannels
        [{ id := 1, valueTree := 1, numChannels := 0, fixChannelAmount := false },
         { id := 2, valueTree := 2, numChannels := 2, fixChannelAmount := true },
         { id := 3, valueTree := 3, numChannels := 5, fixChannelAmount := false }] ≤ 6 ∧
    totalChannels (channelLayoutChanged 6
      [{ id := 1, valueTree := 1, numChannels := 0, fixChannelAmount := false },
       { id := 2, valueTree := 2, numChannels := 2, fixChannelAmount := true },
       { id := 3, valueTree := 3, numChannels := 5, fixChannelAmount := false }] none).nodes = 6 :=
  ⟨by decide, C1_sum_equals_total_when_divisible 6 _ (by decide) (by decide) (by decide)⟩

/-- C8: when the container's channel count and its children's current channel
counts are non-negative, every count that `channelLayoutChanged` hands to a
child's `setNumChannels` lies between 0 and the container's channel count,
whatever the cause node is. -/
theorem C8_requested_channels_in_budget (C : Int) (nodes : List NodeBase) (cause : Option Nat)
    (hC : 0 ≤ C) (hn : ∀ n ∈ nodes, 0 ≤ n.getNumChannelsToProcess) :
    ∀ c ∈ (channelLayoutChanged C nodes cause).setNumChannelsCalls, 0 ≤ c.2 ∧ c.2 ≤ C := by
  intro c hc
  have hp := lockedPass_eq nodes C 0
  simp only [zero_add] at hp
  unfold channelLayoutChanged at hc
  simp only [hp] at hc
  split_ifs at hc with hlen hk
  · simp at hc
  · have hb := distributePass_calls_bounds cause _ nodes _ c hc
    have hle := tdiv_le_of_nonneg_sub hC (fixedChannels_nonneg nodes hn) hk
    exact ⟨hb.1, le_trans hb.2 hle⟩
  · simp at hc

/-- C8, instance: five channels, one fixed child with two channels, two flexible
children, the second one being the cause. -/
theorem C8_requested_channels_in_budget_witness :
    (channelLayoutChanged 5
      [{ id := 1, valueTree := 1, numChannels := 0, fixChannelAmount := false },
       { id := 2, valueTree := 2, numChannels := 2, fixChannelAmount := true },
       { id := 3, valueTree := 3, numChannels := 4, fixChannelAmount := false }]
      (some 3)).setNumChannelsCalls = [(1, 1)] ∧ (0 : Int) ≤ 1 ∧ (1 : Int) ≤ 5 :=
  ⟨by decide,
   C8_requested_channels_in_budget 5
      [{ id := 1, valueTree := 1, numChannels := 0, fixChannelAmount := false },
       { id := 2, valueTree := 2, numChannels := 2, fixChannelAmount := true },
       { id := 3, valueTree := 3, numChannels := 4, fixChannelAmount := false }]
      (some 3) (by decide) (by decide) (1, 1) (by decide)⟩

end MultiChannelNode

end scriptnode

namespace scriptnode

/-! ## MacroParameter: bypass connections -/

namespace MacroParameter

/-- The closure of a bypass connection, on a live target: it sets the bypass
state to the range test when inverted and to its negation otherwise. -/
theorem createCallback_bypass_live (H : DspHelpers) (c : Connection) (n : Nat)
    (hn : c.nodeToBeBypassed = some n) (i : ℚ) (w : World) (hlive : n ∈ w.liveNodes) :
    c.createCallbackForNormalisedInput H i w
      = some (w.perform (Effect.setBypassed n
          (if c.inverted then c.connectionRange.getRange.contains (i * c.rangeMultiplerForBypass)
           else !c.connectionRange.getRange.contains (i * c.rangeMultiplerForBypass)))) := by
  unfold Connection.createCallbackForNormalisedInput
  rw [hn]
  by_cases hinv : c.inverted = true <;> simp [hinv, hlive]

/-- The closure of a bypass connection whose target is gone does nothing. -/
theorem createCallback_bypass_dead (H : DspHelpers) (c : Connection) (n : Nat)
    (hn : c.nodeToBeBypassed = some n) (i : ℚ) (w : World) (hdead : n ∉ w.liveNodes) :
    c.createCallbackForNormalisedInput H i w = some w := by
  unfold Connection.createCallbackForNormalisedInput
  rw [hn]
  by_cases hinv : c.inverted = true <;> simp [hinv, hdead]

/-- C2 (as stated) fails: a bypass connection on node 7 with range [0, 1),
multiplier 1, not inverted; the input 1/2 lies inside the range and the closure
sets the bypass state of node 7 to false, not to true. -/
theorem C2_bypass_polarity_counterexample :
    ¬ ((({ start := 0, stop := 1 } : NormalisableRange).getRange.contains ((1 / 2 : ℚ) * 1) = true →
        Connection.createCallbackForNormalisedInput
          { isIdentity := fun _ => true, convertTo0to1 := fun _ x => x,
            conversion := fun _ _ _ x => x }
          { nodeToBeBypassed := some 7, rangeMultiplerForBypass := 1, p := none,
            conversion := ConverterIds.Identity, opType := OperatorIds.SetValue,
            connectionRange := { start := 0, stop := 1 }, inverted := false }
          (1 / 2) { liveNodes := [7], effects := [] }
        = some { liveNodes := [7], effects := [Effect.setBypassed 7 true] })) := by
  simp [Connection.createCallbackForNormalisedInput, NormalisableRange.getRange, Range.contains,
    World.perform]
  norm_num

/-- C2 (amended): for a bypass connection with range [a,b] and multiplier m
whose target node exists, and a normalised input i with i*m inside the range,
the closure of `createCallbackForNormalisedInput` sets the target's bypass
state to false when the connection is not inverted and to true when it is
inverted (the new bypass state equals the inversion flag). -/
theorem C2_bypass_polarity (H : DspHelpers) (c : Connection) (n : Nat)
    (hn : c.nodeToBeBypassed = some n) (i : ℚ) (w : World) (hlive : n ∈ w.liveNodes)
    (hin : c.connectionRange.getRange.contains (i * c.rangeMultiplerForBypass) = true) :
    c.createCallbackForNormalisedInput H i w
      = some (w.perform (Effect.setBypassed n c.inverted)) := by
  rw [createCallback_bypass_live H c n hn i w hlive, hin]
  cases c.inverted <;> rfl

/-- C2 (amended), instance: an inverted bypass connection on node 7 with range
[0, 1) and multiplier 1, input 1/2. -/
theorem C2_bypass_polarity_witness :
    (7 : Nat) ∈ ({ liveNodes := [7], effects := [] } : World).liveNodes ∧
    ({ start := 0, stop := 1 } : NormalisableRange).getRange.contains ((1 / 2 : ℚ) * 1) = true ∧
    Connection.createCallbackForNormalisedInput Examples.helpers
        { nodeToBeBypassed := some 7, rangeMultiplerForBypass := 1, p := none,
          conversion := ConverterIds.Identity, opType := OperatorIds.SetValue,
          connectionRange := { start := 0, stop := 1 }, inverted := true }
        (1 / 2) { liveNodes := [7], effects := [] }
      = some (World.perform { liveNodes := [7], effects := [] } (Effect.setBypassed 7 true)) :=
  ⟨by decide, by simp [NormalisableRange.getRange, Range.contains]; norm_num,
   C2_bypass_polarity Examples.helpers
     { nodeToBeBypassed := some 7, rangeMultiplerForBypass := 1, p := none,
       conversion := ConverterIds.Identity, opType := OperatorIds.SetValue,
       connectionRange := { start := 0, stop := 1 }, inverted := true }
     7 rfl (1 / 2) { liveNodes := [7], effects := [] } (by decide)
     (by simp [NormalisableRange.getRange, Range.contains]; norm_num)⟩

end MacroParameter

end scriptnode

namespace scriptnode

/-! ## SplitNode -/

namespace SplitNode

theorem zipWith_add_scale {α : Type} [AddMonoid α] (j : Nat) (c : List α) :
    List.zipWith (fun x y => x + y) (c.map (fun x => j • x)) c = c.map (fun x => (j + 1) • x) := by
  induction c with
  | nil => rfl
  | cons x rest ih => simp [ih, succ_nsmul]

theorem add_scale {α : Type} [AddMonoid α] (j : Nat) (X : Buffer α) :
    Buffer.add (Buffer.scale j X) X = Buffer.scale (j + 1) X := by
  unfold Buffer.add Buffer.scale
  induction X with
  | nil => rfl
  | cons c rest ih => simp [ih, zipWith_add_scale]

theorem scale_one {α : Type} [AddMonoid α] (X : Buffer α) : Buffer.scale 1 X = X := by
  simp [Buffer.scale]

theorem foldl_identity {α : Type} [AddMonoid α] (X : Buffer α) (nodes : List (ChildNode α))
    (hid : ∀ c ∈ nodes, ∀ b, c.process b = b) (j : Nat) (inv : List Nat) :
    (nodes.foldl (processStep X) { data := Buffer.scale (j + 1) X, isFirst := false, invoked := inv }).data
      = Buffer.scale (j + 1 + nodes.length) X := by
  induction nodes generalizing j inv with
  | nil => rfl
  | cons c rest ih =>
    have hc : c.process X = X := hid c (List.mem_cons_self _ _) X
    have hrest : ∀ d ∈ rest, ∀ b, d.process b = b := fun d hd => hid d (List.mem_cons_of_mem _ hd)
    simp only [List.foldl_cons, processStep, hc, add_scale, List.length_cons]
    have := ih hrest (j + 1) (inv ++ [c.id])
    simp only [Bool.false_eq_true, if_false]
    rw [this]
    congr 1
    omega

/-- C3: a non-bypassed split container with n >= 1 children that all apply
the identity transform turns every input buffer X into n·X. -/
theorem C3_split_conservation {α : Type} [AddMonoid α] (nodes : List (ChildNode α))
    (X : Buffer α) (hn : 1 ≤ nodes.length) (hid : ∀ c ∈ nodes, ∀ b, c.process b = b) :
    (process false nodes X).1 = Buffer.scale nodes.length X := by
  cases nodes with
  | nil => simp at hn
  | cons c rest =>
    have hc : c.process X = X := hid c (List.mem_cons_self _ _) X
    have hrest : ∀ d ∈ rest, ∀ b, d.process b = b := fun d hd => hid d (List.mem_cons_of_mem _ hd)
    have h := foldl_identity X rest hrest 0 [c.id]
    simp only [zero_add, scale_one] at h
    simp only [process, Bool.false_eq_true, if_false, List.foldl_cons, processStep, if_true, hc,
      List.nil_append, List.length_cons]
    rw [h]
    congr 1
    omega

/-- C3, instance: three identity children and a buffer of two channels with two
samples each. -/
theorem C3_split_conservation_witness :
    (process false [identityChild Int 1, identityChild Int 2, identityChild Int 3]
      [[1, -2], [5, 0]]).1 = [[3, -6], [15, 0]] :=
  C3_split_conservation [identityChild Int 1, identityChild Int 2, identityChild Int 3]
    [[1, -2], [5, 0]] (by decide) (by
      intro c hc b
      simp only [List.mem_cons, List.mem_singleton, List.not_mem_nil, or_false] at hc
      rcases hc with rfl | rfl | rfl <;> rfl)

/-- C4: a bypassed split container leaves the buffer and the frame exactly as
they were and invokes no child, whatever its children are. -/
theorem C4_split_bypass_is_noop {α : Type} [Add α] (nodes : List (ChildNode α))
    (data : Buffer α) (frameData : List α) (numChannels : Nat) :
    process true nodes data = (data, []) ∧
    processSingle true nodes frameData numChannels = (frameData, []) := by
  constructor <;> rfl

end SplitNode

end scriptnode

namespace scriptnode

/-! ## NodeContainer: node tracking -/

theorem MultiChannelNode.distributePass_ids (cause : Option Nat) (numPerNode : Int)
    (nodes : List NodeBase) (avail : Int) :
    (MultiChannelNode.distributePass cause numPerNode nodes avail).nodes.map NodeBase.id
      = nodes.map NodeBase.id := by
  induction nodes generalizing avail with
  | nil => rfl
  | cons n rest ih =>
    unfold MultiChannelNode.distributePass
    split_ifs <;> simp [ih, NodeBase.setNumChannels]

theorem MultiChannelNode.channelLayoutChanged_ids (C : Int) (nodes : List NodeBase)
    (cause : Option Nat) :
    (MultiChannelNode.channelLayoutChanged C nodes cause).nodes.map NodeBase.id
      = nodes.map NodeBase.id := by
  unfold MultiChannelNode.channelLayoutChanged
  by_cases hlen : nodes.length = 0
  · simp [hlen]
  · simp only [hlen, if_false]
    by_cases hk : 0 < (MultiChannelNode.lockedPass nodes (C, (nodes.length : Int))).2
    · simp only [hk, if_true]
      exact MultiChannelNode.distributePass_ids _ _ _ _
    · simp only [hk, if_false]

theorem MultiChannelNode.virtuals_keepNodeList : MultiChannelNode.virtuals.KeepNodeList :=
  ⟨fun cause s => MultiChannelNode.channelLayoutChanged_ids s.numChannels s.nodes cause,
   fun _ _ _ => rfl⟩

namespace NodeContainer

theorem prepareIfReady_ids (V : Virtuals) (hV : V.KeepNodeList) (s : NodeContainer) :
    (prepareIfReady V s).nodes.map NodeBase.id = s.nodes.map NodeBase.id := by
  unfold prepareIfReady
  split_ifs
  · rw [hV.2]; rfl
  · rfl

theorem updateChannels_ids (V : Virtuals) (hV : V.KeepNodeList) (g : Nat → Option NodeBase)
    (s : NodeContainer) (v : Nat) :
    (updateChannels V g s v).nodes.map NodeBase.id = s.nodes.map NodeBase.id := by
  unfold updateChannels
  split_ifs
  · rw [prepareIfReady_ids V hV, hV.1]; rfl
  · rfl
  · show (prepareIfReady V _).nodes.map NodeBase.id = _
    rw [prepareIfReady_ids V hV, hV.1]; rfl
  · rfl

theorem containsNode_iff (nodes : List NodeBase) (node : NodeBase) :
    containsNode nodes node = true ↔ node.id ∈ nodes.map NodeBase.id := by
  unfold containsNode
  rw [List.any_eq_true, List.mem_map]
  constructor
  · rintro ⟨n, hn, h⟩
    exact ⟨n, hn, by simpa using h⟩
  · rintro ⟨n, hn, h⟩
    exact ⟨n, hn, by simpa using h⟩

theorem insertNode_perm (nodes : List NodeBase) (index : Int) (node : NodeBase) :
    (insertNode nodes index node).Perm (node :: nodes) := by
  unfold insertNode
  split_ifs with h
  · exact List.perm_insertIdx _ _ (by omega)
  · exact List.perm_append_singleton _ _

theorem insertNode_count (nodes : List NodeBase) (index : Int) (node : NodeBase) :
    ((insertNode nodes index node).map NodeBase.id).count node.id
      = (nodes.map NodeBase.id).count node.id + 1 := by
  rw [((insertNode_perm nodes index node).map NodeBase.id).count_eq]
  simp

theorem removeAllInstancesOf_ids (nodes : List NodeBase) (node : NodeBase) :
    (removeAllInstancesOf nodes node).map NodeBase.id
      = (nodes.map NodeBase.id).filter (fun i => i != node.id) := by
  unfold removeAllInstancesOf
  induction nodes with
  | nil => rfl
  | cons n rest ih =>
    by_cases h : n.id = node.id <;> simp [List.filter_cons, h, ih]

/-- The node-added and node-removed events keep the node list free of repeated
nodes: every list they build from the empty one holds each node at most once. -/
theorem nodeAddedOrRemoved_nodup (V : Virtuals) (hV : V.KeepNodeList)
    (g : Nat → Option NodeBase) (s : NodeContainer) (child : Nat) (wasAdded : Bool)
    (hnodup : (s.nodes.map NodeBase.id).Nodup) :
    ((nodeAddedOrRemoved V g s child wasAdded).nodes.map NodeBase.id).Nodup := by
  unfold nodeAddedOrRemoved
  cases hres : g child with
  | none => simpa using hnodup
  | some node =>
    cases wasAdded with
    | true =>
      by_cases hc : containsNode s.nodes node = true
      · simpa [hc] using hnodup
      · simp only [hc, if_true, Bool.false_eq_true, if_false]
        rw [updateChannels_ids V hV]
        have hperm := (insertNode_perm s.nodes (ValueTree.indexOf s.nodeTree child) node).map
          NodeBase.id
        rw [hperm.nodup_iff, List.map_cons, List.nodup_cons]
        exact ⟨fun hmem => hc ((containsNode_iff _ _).mpr hmem), hnodup⟩
    | false =>
      simp only [Bool.false_eq_true, if_false]
      rw [updateChannels_ids V hV, removeAllInstancesOf_ids]
      exact hnodup.filter _

/-- C5: delivering the node-added event for an entity that resolves to a node a
second time changes nothing, and after the first delivery the node occurs
exactly once in the node list (the list never held the node more than once,
and the virtual methods do not alter the membership of the list). -/
theorem C5_node_added_idempotent (V : Virtuals) (hV : V.KeepNodeList)
    (getNodeForValueTree : Nat → Option NodeBase) (s : NodeContainer) (child : Nat)
    (node : NodeBase) (hres : getNodeForValueTree child = some node)
    (hwf : (s.nodes.map NodeBase.id).count node.id ≤ 1) :
    nodeAddedOrRemoved V getNodeForValueTree
        (nodeAddedOrRemoved V getNodeForValueTree s child true) child true
      = nodeAddedOrRemoved V getNodeForValueTree s child true ∧
    ((nodeAddedOrRemoved V getNodeForValueTree s child true).nodes.map NodeBase.id).count node.id
      = 1 := by
  by_cases hc : containsNode s.nodes node = true
  · have h1 : nodeAddedOrRemoved V getNodeForValueTree s child true = s := by
      simp [nodeAddedOrRemoved, hres, hc]
    rw [h1, h1]
    refine ⟨rfl, ?_⟩
    have hpos : 0 < (s.nodes.map NodeBase.id).count node.id :=
      List.count_pos_iff.mpr ((containsNode_iff _ _).mp hc)
    omega
  · have h1 : nodeAddedOrRemoved V getNodeForValueTree s child true
        = updateChannels V getNodeForValueTree
            { s with nodes := insertNode s.nodes (ValueTree.indexOf s.nodeTree child) node }
            s.valueTree := by
      simp [nodeAddedOrRemoved, hres, hc]
    have hids := updateChannels_ids V hV getNodeForValueTree
      { s with nodes := insertNode s.nodes (ValueTree.indexOf s.nodeTree child) node } s.valueTree
    have hzero : (s.nodes.map NodeBase.id).count node.id = 0 :=
      List.count_eq_zero.mpr (fun hmem => hc ((containsNode_iff _ _).mpr hmem))
    have hcount : ((nodeAddedOrRemoved V getNodeForValueTree s child true).nodes.map
        NodeBase.id).count node.id = 1 := by
      rw [h1, hids, insertNode_count, hzero]
    refine ⟨?_, hcount⟩
    have hc2 : containsNode (nodeAddedOrRemoved V getNodeForValueTree s child true).nodes node
        = true := by
      rw [containsNode_iff]
      exact List.count_pos_iff.mp (by omega)
    generalize nodeAddedOrRemoved V getNodeForValueTree s child true = s1 at hc2 ⊢
    simp [nodeAddedOrRemoved, hres, hc2]

/-- C5, instance: the entity 13 of `nodeC` is added at index 1 of the example
container, twice. -/
theorem C5_node_added_idempotent_witness :
    Examples.getNodeForValueTree 13 = some Examples.nodeC ∧
    ((Examples.container.nodes.map NodeBase.id).count Examples.nodeC.id ≤ 1) ∧
    (nodeAddedOrRemoved MultiChannelNode.virtuals Examples.getNodeForValueTree
        { Examples.container with nodeTree := [11, 13, 12] } 13 true).nodes.map NodeBase.id
      = [1, 3, 2] ∧
    nodeAddedOrRemoved MultiChannelNode.virtuals Examples.getNodeForValueTree
        (nodeAddedOrRemoved MultiChannelNode.virtuals Examples.getNodeForValueTree
          { Examples.container with nodeTree := [11, 13, 12] } 13 true) 13 true
      = nodeAddedOrRemoved MultiChannelNode.virtuals Examples.getNodeForValueTree
          { Examples.container with nodeTree := [11, 13, 12] } 13 true :=
  ⟨by decide, by decide, by decide,
   (C5_node_added_idempotent MultiChannelNode.virtuals MultiChannelNode.virtuals_keepNodeList
     Examples.getNodeForValueTree { Examples.container with nodeTree := [11, 13, 12] } 13
     Examples.nodeC (by decide) (by decide)).1⟩

end NodeContainer

end scriptnode

namespace scriptnode

/-! ## NodeContainer: re-entrant recompute -/

namespace NodeContainer

/-- While the guard flag is set, `updateChannels` for any entity other than
the container's own one returns at once. -/
theorem updateChannels_guarded (V : Virtuals) (g : Nat → Option NodeBase) (t : NodeContainer)
    (w : Nat) (hflag : t.channelRecursionProtection = true) (hw : w ≠ t.valueTree) :
    updateChannels V g t w = t := by
  unfold updateChannels
  simp [hw, hflag]

/-- C9 (as stated) fails: the prepared container 100 recomputes because its own
channel-count property changed; while that recompute is in progress
`updateChannels` is invoked again for its child entity 11.  The guard flag is
not set on this path, and the inner invocation runs the layout algorithm (with
node 1 as cause) and `prepare`. -/
theorem C9_reentrant_recompute_counterexample :
    (updateChannels
        (MultiChannelNode.virtuals.reenterOnLayout MultiChannelNode.virtuals
          Examples.getNodeForValueTree 11)
        Examples.getNodeForValueTree Examples.container 100).calls
      = [Call.channelLayoutChanged none, Call.channelLayoutChanged (some 1),
         Call.prepare 44100 512, Call.prepare 44100 512] ∧
    (updateChannels MultiChannelNode.virtuals
        Examples.getNodeForValueTree Examples.container 100).calls
      = [Call.channelLayoutChanged none, Call.prepare 44100 512] := by
  decide

/-- C9 (amended): when `updateChannels` is invoked for any entity but the
container's own one while a recompute that was started by a child's
channel-count change is in progress, the inner invocation does nothing: the
outer call ends in the same state, with the same calls, as without it. -/
theorem C9_reentrant_recompute_from_child_is_noop (V Vin : Virtuals)
    (g : Nat → Option NodeBase) (s : NodeContainer) (v w : Nat)
    (hv : v ≠ s.valueTree) (hchild : v ∈ s.nodeTree) (hw : w ≠ s.valueTree) :
    updateChannels (V.reenterOnLayout Vin g w) g s v = updateChannels V g s v := by
  unfold updateChannels
  simp only [hv, if_false, hchild, if_true]
  by_cases hflag : s.channelRecursionProtection = true
  · simp [hflag]
  · simp only [hflag, if_false]
    have hin : updateChannels Vin g
        (record { s with channelRecursionProtection := true }
          (Call.channelLayoutChanged (Option.map NodeBase.id (g v)))) w
        = record { s with channelRecursionProtection := true }
          (Call.channelLayoutChanged (Option.map NodeBase.id (g v))) :=
      updateChannels_guarded Vin g _ w rfl hw
    simp only [Virtuals.reenterOnLayout, hin, prepareIfReady]

/-- C9 (amended), instance: the recompute is started by the child entity 11 and
re-entered for the child entity 12. -/
theorem C9_reentrant_recompute_from_child_is_noop_witness :
    (11 : Nat) ≠ Examples.container.valueTree ∧ 11 ∈ Examples.container.nodeTree ∧
    (12 : Nat) ≠ Examples.container.valueTree ∧
    updateChannels
        (MultiChannelNode.virtuals.reenterOnLayout MultiChannelNode.virtuals
          Examples.getNodeForValueTree 12)
        Examples.getNodeForValueTree Examples.container 11
      = updateChannels MultiChannelNode.virtuals Examples.getNodeForValueTree
          Examples.container 11 :=
  ⟨by decide, by decide, by decide,
   C9_reentrant_recompute_from_child_is_noop MultiChannelNode.virtuals MultiChannelNode.virtuals
     Examples.getNodeForValueTree Examples.container 11 12 (by decide) (by decide) (by decide)⟩

end NodeContainer

end scriptnode

namespace scriptnode

/-! ## NodeContainer: assign -/

namespace NodeContainer

theorem addChild_getElem? (children : List Nat) (child : Nat) (index : Nat)
    (h : index ≤ children.length) :
    (ValueTree.addChild children child (index : Int))[index]? = some child := by
  unfold ValueTree.addChild
  by_cases hlt : index < children.length
  · have h1 : (0 : Int) ≤ index ∧ (index : Int) < children.length := ⟨by omega, by omega⟩
    simp only [h1, and_self, if_true, Int.toNat_ofNat]
    have hlen : index < (List.insertIdx index child children).length := by
      rw [List.length_insertIdx _ _ h]; omega
    rw [List.getElem?_eq_getElem hlen, List.getElem_insertIdx_self _ _ _ h]
  · have h1 : ¬ ((0 : Int) ≤ index ∧ (index : Int) < children.length) := by omega
    have heq : index = children.length := by omega
    simp only [h1, if_false]
    rw [heq, List.getElem?_append_right (le_refl _)]
    simp

theorem mem_addChild (children : List Nat) (child : Nat) (index : Int) (c : Nat) :
    c ∈ ValueTree.addChild children child index ↔ c = child ∨ c ∈ children := by
  unfold ValueTree.addChild
  split_ifs with h
  · rw [List.mem_insertIdx (by omega)]
  · simp [or_comm]

theorem length_addChild (children : List Nat) (child : Nat) (index : Int) :
    (ValueTree.addChild children child index).length = children.length + 1 := by
  unfold ValueTree.addChild
  split_ifs with h
  · exact List.length_insertIdx _ _ (by omega)
  · simp

/-- C10 (as stated) fails: the container holds the children 11 and 12 and
`assign(0, v)` is called with a node v whose entity 13 lives elsewhere; then 13
is the child at position 0, but the former child 11 is still a child and the
number of children went from 2 to 3. -/
theorem C10_assign_replaces_counterexample :
    (assign Examples.container 0 (Var.node 13 false)).nodeTree = [13, 11, 12] ∧
    ¬ (11 ∉ (assign Examples.container 0 (Var.node 13 false)).nodeTree ∧
       (assign Examples.container 0 (Var.node 13 false)).nodeTree.length
         = Examples.container.nodeTree.length) := by
  decide

/-- C10 (amended): for a valid index in a node tree without repeated children,
`assign(index, v)` with a node v (whose entity does not hold the container)
makes v's entity the child at position `index`, keeps every former child (the
one formerly at `index` is not removed) and lets the number of children grow by
one unless v's entity already was a child; with a v that is not a node the
child formerly at `index` is no longer a child and the number of children has
decreased by one. -/
theorem C10_assign_inserts_or_removes (s : NodeContainer) (index : Nat)
    (hidx : index < s.nodeTree.length) (hnodup : s.nodeTree.Nodup) :
    (∀ tree : Nat,
      (assign s index (Var.node tree false)).nodeTree[index]? = some tree ∧
      (∀ c ∈ s.nodeTree, c ∈ (assign s index (Var.node tree false)).nodeTree) ∧
      (assign s index (Var.node tree false)).nodeTree.length
        = (if tree ∈ s.nodeTree then s.nodeTree.length else s.nodeTree.length + 1)) ∧
    (s.nodeTree.get ⟨index, hidx⟩ ∉ (assign s index Var.other).nodeTree ∧
      (assign s index Var.other).nodeTree.length + 1 = s.nodeTree.length) := by
  constructor
  · intro tree
    simp only [assign, Bool.false_eq_true, if_false, ValueTree.removeChild]
    refine ⟨?_, ?_, ?_⟩
    · apply addChild_getElem?
      by_cases hmem : tree ∈ s.nodeTree
      · rw [List.length_erase_of_mem hmem]; omega
      · rw [List.erase_of_not_mem hmem]; omega
    · intro c hc
      rw [mem_addChild]
      by_cases hct : c = tree
      · exact Or.inl hct
      · exact Or.inr ((List.mem_erase_of_ne hct).mpr hc)
    · rw [length_addChild]
      by_cases hmem : tree ∈ s.nodeTree
      · rw [List.length_erase_of_mem hmem, if_pos hmem]
        have : 0 < s.nodeTree.length := List.length_pos_of_mem hmem
        omega
      · rw [List.erase_of_not_mem hmem, if_neg hmem]
  · have h1 : (0 : Int) ≤ index ∧ (index : Int) < s.nodeTree.length := ⟨by omega, by omega⟩
    simp only [assign, ValueTree.removeChildAt, h1, and_self, if_true, Int.toNat_ofNat]
    constructor
    · rw [List.get_eq_getElem, ← hnodup.erase_getElem index hidx, hnodup.mem_erase_iff]
      simp
    · rw [List.length_eraseIdx_of_lt hidx]; omega

/-- C10 (amended), instance: index 1 of the example container, with a child, with
a foreign node and with a value that is not a node. -/
theorem C10_assign_inserts_or_removes_witness :
    (assign Examples.container 1 (Var.node 11 false)).nodeTree = [12, 11] ∧
    (assign Examples.container 1 (Var.node 13 false)).nodeTree = [11, 13, 12] ∧
    (assign Examples.container 1 Var.other).nodeTree = [11] ∧
    (12 ∉ (assign Examples.container 1 Var.other).nodeTree ∧
      (assign Examples.container 1 Var.other).nodeTree.length + 1
        = Examples.container.nodeTree.length) :=
  ⟨by decide, by decide, by decide,
   (C10_assign_inserts_or_removes Examples.container 1 (by decide) (by decide)).2⟩

end NodeContainer

end scriptnode

namespace scriptnode

/-! ## MacroParameter: resolving connections -/

namespace MacroParameter

theorem isValid_create (network : List NodeBase) (r : NormalisableRange) (d : ConnectionData) :
    (Connection.create network r d).isValid = targetResolves network d := by
  unfold Connection.create targetResolves Connection.isValid
  cases hfind : network.find? (fun n => n.nodeId == d.nodeId) with
  | none => simp
  | some targetNode =>
    by_cases hb : d.parameterId = PropertyIds.Bypassed
    · simp [hb]
    · cases hp : targetNode.parameters.find? (fun q => q.id == d.parameterId) with
      | none =>
        have hany : targetNode.parameters.any (fun q => q.id == d.parameterId) = false := by
          rw [List.find?_eq_none] at hp
          rw [List.any_eq_false]
          exact hp
        simp only [hb, if_false, hp, hany]
        simp [hb]
      | some q =>
        have hany : targetNode.parameters.any (fun q => q.id == d.parameterId) = true := by
          rw [List.any_eq_true]
          exact ⟨q, List.mem_of_find?_eq_some hp,
            @List.find?_some _ (fun q => q.id == d.parameterId) q _ hp⟩
        simp only [hb, if_false, hp, hany]
        simp

theorem validConnections_eq (network : List NodeBase) (r : NormalisableRange)
    (cTree : List ConnectionData) :
    validConnections network r cTree
      = (cTree.filter (targetResolves network)).map (Connection.create network r) := by
  induction cTree with
  | nil => rfl
  | cons c rest ih =>
    by_cases h : targetResolves network c = true
    · simp [validConnections, isValid_create, h, ih]
    · simp [validConnections, isValid_create, h, ih]

theorem rebuildCallback_connections (H : DspHelpers) (network : List NodeBase)
    (r : NormalisableRange) (cTree : List ConnectionData) :
    (rebuildCallback H network r cTree).connections = validConnections network r cTree := by
  unfold rebuildCallback
  by_cases hlen : 0 < (validConnections network r cTree).length
  · by_cases hid : H.isIdentity r = true <;> simp [hlen, hid]
  · simp [hlen]

theorem rebuildCallback_callback (H : DspHelpers) (network : List NodeBase)
    (r : NormalisableRange) (cTree : List ConnectionData) (x : ℚ) (w : World) :
    (rebuildCallback H network r cTree).callback x w
      = callAll ((validConnections network r cTree).map (Connection.createCallbackForNormalisedInput H))
          (if H.isIdentity r then x else H.convertTo0to1 r x) w := by
  unfold rebuildCallback
  by_cases hlen : 0 < (validConnections network r cTree).length
  · by_cases hid : H.isIdentity r = true <;> simp [hlen, hid]
  · have hnil : validConnections network r cTree = [] := by
      apply List.eq_nil_of_length_eq_zero; omega
    simp [hnil, callAll, emptyCallback]

/-- C7: `rebuildCallback` keeps exactly the connections whose target resolves
(node id found, parameter id the bypass sentinel or one of that node's
parameter ids), in list order; its callback is the fan-out over the closures of
those connections, and it is the callback that the list without the other
connections yields.  Building never fails. -/
theorem C7_unresolvable_connections_dropped (H : DspHelpers) (network : List NodeBase)
    (r : NormalisableRange) (cTree : List ConnectionData) :
    (rebuildCallback H network r cTree).connections
      = (cTree.filter (targetResolves network)).map (Connection.create network r) ∧
    (∀ x w, (rebuildCallback H network r cTree).callback x w
      = callAll (((cTree.filter (targetResolves network)).map (Connection.create network r)).map
            (Connection.createCallbackForNormalisedInput H))
          (if H.isIdentity r then x else H.convertTo0to1 r x) w) ∧
    (rebuildCallback H network r cTree).callback
      = (rebuildCallback H network r (cTree.filter (targetResolves network))).callback := by
  refine ⟨?_, ?_, ?_⟩
  · rw [rebuildCallback_connections, validConnections_eq]
  · intro x w
    rw [rebuildCallback_callback, validConnections_eq]
  · funext x w
    rw [rebuildCallback_callback, rebuildCallback_callback, validConnections_eq,
      validConnections_eq, List.filter_filter]
    simp

/-- C6 (the code at the failing input): a macro parameter is connected to the
bypass state of `fx` and to the parameter `Gain` of `osc`, in this order, and
its callback is rebuilt.  When `osc` is destroyed afterwards, invoking the
callback calls `setValueAndStoreAsync` through the pointer to the destroyed
parameter: the closure of a parameter connection makes no liveness check and
the behaviour is undefined (`none`).  When instead `fx` is destroyed, the
bypass closure notices it and only `Gain` is set. -/
theorem C6_dangling_parameter_connection :
    (rebuildCallback Examples.helpers Examples.network { start := 0, stop := 1 }
        [Examples.bypassFx, Examples.gainOsc]).callback (1 / 2) (Examples.world.destroy 1)
      = none ∧
    (rebuildCallback Examples.helpers Examples.network { start := 0, stop := 1 }
        [Examples.bypassFx, Examples.gainOsc]).callback (1 / 2) (Examples.world.destroy 2)
      = some { liveNodes := [1],
               effects := [Effect.setValueAndStoreAsync { node := 1, id := "Gain" } (1 / 2)] } := by
  constructor
  · decide
  · simp [rebuildCallback, validConnections, Connection.create, Connection.isValid,
      Examples.network, Examples.osc, Examples.fx, Examples.bypassFx, Examples.gainOsc,
      Examples.helpers, callAll, Connection.createCallbackForNormalisedInput,
      PropertyIds.Bypassed, Examples.world, World.destroy, World.perform, bindParameter,
      wrapIntoConversionLambda, OperatorIds.SetValue, OperatorIds.Add, OperatorIds.Multiply]

end MacroParameter

end scriptnode

namespace scriptnode

/-! ## MultiChannelNode: shares of the flexible children -/

namespace MultiChannelNode

theorem mem_evenly_flexible (numPerNode : Int) (nodes : List NodeBase) :
    ∀ n ∈ evenly numPerNode nodes, n.hasFixChannelAmount = false →
      n.getNumChannelsToProcess = numPerNode := by
  intro n hn hflex
  unfold evenly at hn
  rw [List.mem_map] at hn
  obtain ⟨m, _, hm⟩ := hn
  by_cases hf : m.hasFixChannelAmount = true
  · simp only [hf, if_true] at hm
    rw [← hm, hf] at hflex
    exact absurd hflex (by decide)
  · simp only [hf] at hm
    rw [← hm]
    rfl

/-- C17: with total channel count C, fixed children whose counts sum to
F <= C, k >= 1 flexible children and no cause node, `channelLayoutChanged`
leaves the fixed children alone and gives every flexible child exactly
floor((C - F) / k) channels. -/
theorem C17_even_share_for_flexible_children (C : Int) (nodes : List NodeBase)
    (hF : fixedChannels nodes ≤ C) (hk : 1 ≤ numFlexible nodes) :
    (channelLayoutChanged C nodes none).nodes
      = evenly ((C - fixedChannels nodes) / (numFlexible nodes : Int)) nodes ∧
    ∀ n ∈ (channelLayoutChanged C nodes none).nodes, n.hasFixChannelAmount = false →
      n.getNumChannelsToProcess = (C - fixedChannels nodes) / (numFlexible nodes : Int) := by
  have hdiv : Int.tdiv (C - fixedChannels nodes) (numFlexible nodes)
      = (C - fixedChannels nodes) / (numFlexible nodes : Int) :=
    Int.tdiv_eq_ediv (by omega) (by omega)
  have h := channelLayoutChanged_none C nodes hF hk
  rw [hdiv] at h
  refine ⟨h, ?_⟩
  rw [h]
  exact mem_evenly_flexible _ nodes

/-- C17, instance: the fixed child A has two channels, the container has two
channels, and the flexible child B is assigned 0. -/
theorem C17_even_share_for_flexible_children_witness :
    fixedChannels
        [{ id := 1, valueTree := 11, numChannels := 2, fixChannelAmount := true },
         { id := 2, valueTree := 12, numChannels := 5, fixChannelAmount := false }] ≤ 2 ∧
    (channelLayoutChanged 2
        [{ id := 1, valueTree := 11, numChannels := 2, fixChannelAmount := true },
         { id := 2, valueTree := 12, numChannels := 5, fixChannelAmount := false }] none).nodes
      = [{ id := 1, valueTree := 11, numChannels := 2, fixChannelAmount := true },
         { id := 2, valueTree := 12, numChannels := 0, fixChannelAmount := false }] :=
  ⟨by decide,
   (C17_even_share_for_flexible_children 2
      [{ id := 1, valueTree := 11, numChannels := 2, fixChannelAmount := true },
       { id := 2, valueTree := 12, numChannels := 5, fixChannelAmount := false }]
      (by decide) (by decide)).1⟩

theorem flexibleChannels_cons_fix (n : NodeBase) (rest : List NodeBase)
    (hf : n.hasFixChannelAmount = true) :
    flexibleChannels (n :: rest) = flexibleChannels rest := by
  simp [flexibleChannels, List.filter_cons, hf]

theorem flexibleChannels_cons_flex (n : NodeBase) (rest : List NodeBase)
    (hf : ¬ n.hasFixChannelAmount = true) :
    flexibleChannels (n :: rest) = n.numChannels + flexibleChannels rest := by
  simp [flexibleChannels, List.filter_cons, hf, NodeBase.getNumChannelsToProcess]

theorem distributePass_cons_fix (cause : Option Nat) (share : Int) (m : NodeBase)
    (rest : List NodeBase) (pool : Int) (hf : m.hasFixChannelAmount = true) :
    (distributePass cause share (m :: rest) pool).nodes
      = m :: (distributePass cause share rest pool).nodes := by
  simp [distributePass, hf]

theorem distributePass_cons_cause (cause : Option Nat) (share : Int) (m : NodeBase)
    (rest : List NodeBase) (pool : Int) (hf : ¬ m.hasFixChannelAmount = true)
    (hc : some m.id = cause) :
    (distributePass cause share (m :: rest) pool).nodes
      = m :: (distributePass cause share rest (pool - m.numChannels)).nodes := by
  simp [distributePass, hf, hc, NodeBase.getNumChannelsToProcess]

theorem distributePass_cons_assign (cause : Option Nat) (share : Int) (m : NodeBase)
    (rest : List NodeBase) (pool : Int) (hf : ¬ m.hasFixChannelAmount = true)
    (hc : ¬ some m.id = cause) :
    (distributePass cause share (m :: rest) pool).nodes
      = m.setNumChannels (jmax 0 (jmin pool share))
          :: (distributePass cause share rest (pool - jmax 0 (jmin pool share))).nodes := by
  simp [distributePass, hf, hc, NodeBase.getNumChannelsToProcess, NodeBase.setNumChannels]

theorem distributePass_at (cause : Option Nat) (share : Int) (pre : List NodeBase)
    (n : NodeBase) (post : List NodeBase) (pool : Int) (hflex : n.hasFixChannelAmount = false) :
    (distributePass cause share (pre ++ n :: post) pool).nodes[pre.length]?
      = some (if some n.id = cause then n
          else n.setNumChannels (jmax 0 (jmin
            (pool - flexibleChannels
              ((distributePass cause share (pre ++ n :: post) pool).nodes.take pre.length))
            share))) := by
  have hflex2 : ¬ n.hasFixChannelAmount = true := by simp [hflex]
  induction pre generalizing pool with
  | nil =>
    by_cases hc : some n.id = cause
    · rw [List.nil_append, distributePass_cons_cause cause share n post pool hflex2 hc]
      simp [hc]
    · rw [List.nil_append, distributePass_cons_assign cause share n post pool hflex2 hc]
      simp [hc, flexibleChannels]
  | cons m pre ih =>
    by_cases hf : m.hasFixChannelAmount = true
    · rw [List.cons_append, distributePass_cons_fix cause share m _ pool hf, List.length_cons,
        List.getElem?_cons_succ, List.take_succ_cons, flexibleChannels_cons_fix m _ hf]
      exact ih pool
    · by_cases hc : some m.id = cause
      · rw [List.cons_append, distributePass_cons_cause cause share m _ pool hf hc,
          List.length_cons, List.getElem?_cons_succ, List.take_succ_cons,
          flexibleChannels_cons_flex m _ hf, ih (pool - m.numChannels), sub_sub]
      · have hf2 : ¬ (m.setNumChannels (jmax 0 (jmin pool share))).hasFixChannelAmount = true := by
          simpa [NodeBase.setNumChannels, NodeBase.hasFixChannelAmount] using hf
        rw [List.cons_append, distributePass_cons_assign cause share m _ pool hf hc,
          List.length_cons, List.getElem?_cons_succ, List.take_succ_cons,
          flexibleChannels_cons_flex _ _ hf2, ih (pool - jmax 0 (jmin pool share)), sub_sub]
        rfl

theorem numFlexible_pos_of_flexible (pre : List NodeBase) (n : NodeBase) (post : List NodeBase)
    (hflex : n.hasFixChannelAmount = false) : 1 ≤ numFlexible (pre ++ n :: post) := by
  unfold numFlexible
  apply List.length_pos_of_mem (a := n)
  simp [hflex]

/-- C18 (as stated) fails: four channels, two flexible children, the first one
(node 1) is the cause and currently has three channels.  The share is 4 / 2 = 2.
The code takes the cause's current count 3 out of the pool, so the second child
is assigned min(1, 2) = 1; had the cause taken its share 2 out of the pool, as
the claim says, the second child would be assigned 2. -/
theorem C18_running_pool_counterexample :
    (channelLayoutChanged 4
        [{ id := 1, valueTree := 11, numChannels := 3, fixChannelAmount := false },
         { id := 2, valueTree := 12, numChannels := 0, fixChannelAmount := false }] (some 1)).nodes
      = [{ id := 1, valueTree := 11, numChannels := 3, fixChannelAmount := false },
         { id := 2, valueTree := 12, numChannels := 1, fixChannelAmount := false }] ∧
    claimedDistribution (some 1) (Int.tdiv (4 - 0) 2)
        [{ id := 1, valueTree := 11, numChannels := 3, fixChannelAmount := false },
         { id := 2, valueTree := 12, numChannels := 0, fixChannelAmount := false }] (4 - 0)
      = [{ id := 1, valueTree := 11, numChannels := 3, fixChannelAmount := false },
         { id := 2, valueTree := 12, numChannels := 2, fixChannelAmount := false }] ∧
    (channelLayoutChanged 4
        [{ id := 1, valueTree := 11, numChannels := 3, fixChannelAmount := false },
         { id := 2, valueTree := 12, numChannels := 0, fixChannelAmount := false }] (some 1)).nodes
      ≠ claimedDistribution (some 1) (Int.tdiv (4 - 0) 2)
        [{ id := 1, valueTree := 11, numChannels := 3, fixChannelAmount := false },
         { id := 2, valueTree := 12, numChannels := 0, fixChannelAmount := false }] (4 - 0) := by
  decide

/-- C18 (amended): for every cause node, a flexible child other than the cause
is assigned jmax(0, jmin(pool, share)) and the cause keeps its count, where
share = (C - F) / k is the truncating quotient computed once, and pool is C - F
minus the channel counts that the flexible children before it in the list have
after their step: the count just assigned for a reassigned child, the current
count for the cause. -/
theorem C18_running_pool (C : Int) (cause : Option Nat) (pre : List NodeBase) (n : NodeBase)
    (post : List NodeBase) (hflex : n.hasFixChannelAmount = false) :
    (channelLayoutChanged C (pre ++ n :: post) cause).nodes[pre.length]?
      = some (if some n.id = cause then n
          else n.setNumChannels (jmax 0 (jmin
            (C - fixedChannels (pre ++ n :: post)
               - flexibleChannels
                  ((channelLayoutChanged C (pre ++ n :: post) cause).nodes.take pre.length))
            (Int.tdiv (C - fixedChannels (pre ++ n :: post))
              (numFlexible (pre ++ n :: post)))))) := by
  have hk := numFlexible_pos_of_flexible pre n post hflex
  have hlen : (pre ++ n :: post).length ≠ 0 := by simp
  have hp := lockedPass_eq (pre ++ n :: post) C 0
  simp only [zero_add] at hp
  have hkpos : (0 : Int) < numFlexible (pre ++ n :: post) := by exact_mod_cast hk
  have hlayout : channelLayoutChanged C (pre ++ n :: post) cause
      = distributePass cause
          (Int.tdiv (C - fixedChannels (pre ++ n :: post)) (numFlexible (pre ++ n :: post)))
          (pre ++ n :: post) (C - fixedChannels (pre ++ n :: post)) := by
    unfold channelLayoutChanged
    simp only [hlen, if_false, hp, hkpos, if_true]
  rw [hlayout]
  exact distributePass_at cause _ pre n post _ hflex

/-- C18 (amended), instance: the second of two flexible children after a cause
with three of four channels is assigned jmin(4 - 3, 2) = 1. -/
theorem C18_running_pool_witness :
    (channelLayoutChanged 4
        ([{ id := 1, valueTree := 11, numChannels := 3, fixChannelAmount := false }]
          ++ { id := 2, valueTree := 12, numChannels := 0, fixChannelAmount := false } :: [])
        (some 1)).nodes[1]?
      = some { id := 2, valueTree := 12, numChannels := 1, fixChannelAmount := false } :=
  C18_running_pool 4 (some 1)
    [{ id := 1, valueTree := 11, numChannels := 3, fixChannelAmount := false }]
    { id := 2, valueTree := 12, numChannels := 0, fixChannelAmount := false } [] rfl

end MultiChannelNode

end scriptnode

namespace scriptnode

/-! ## NodeContainer: channel-layout recompute -/

theorem MultiChannelNode.virtuals_passive : MultiChannelNode.virtuals.Passive :=
  ⟨fun _ _ => ⟨rfl, rfl, rfl⟩, fun _ _ _ => rfl⟩

namespace NodeContainer

theorem prepareIfReady_calls (V : Virtuals) (hP : V.Passive) (s : NodeContainer) :
    (prepareIfReady V s).calls
      = s.calls ++ (if 0 < s.originalSampleRate
          then [Call.prepare s.originalSampleRate s.originalBlockSize] else []) := by
  unfold prepareIfReady
  by_cases h : 0 < s.originalSampleRate
  · simp only [h, if_true, hP.2]
    rfl
  · simp [h]

/-- The log after a recompute for the container's own entity. -/
theorem updateChannels_own_calls (V : Virtuals) (hP : V.Passive) (g : Nat → Option NodeBase)
    (s : NodeContainer) :
    (updateChannels V g s s.valueTree).calls
      = s.calls ++ Call.channelLayoutChanged none ::
          (if 0 < s.originalSampleRate
            then [Call.prepare s.originalSampleRate s.originalBlockSize] else []) := by
  unfold updateChannels
  simp only [if_true]
  rw [prepareIfReady_calls V hP, (hP.1 _ _).1, (hP.1 _ _).2.1, (hP.1 _ _).2.2]
  simp [record]

/-- The log after a recompute for a child entity with the guard flag clear. -/
theorem updateChannels_child_calls (V : Virtuals) (hP : V.Passive) (g : Nat → Option NodeBase)
    (s : NodeContainer) (v : Nat) (hv : v ≠ s.valueTree) (hchild : v ∈ s.nodeTree)
    (hflag : s.channelRecursionProtection = false) :
    (updateChannels V g s v).calls
      = s.calls ++ Call.channelLayoutChanged ((g v).map NodeBase.id) ::
          (if 0 < s.originalSampleRate
            then [Call.prepare s.originalSampleRate s.originalBlockSize] else []) := by
  unfold updateChannels
  simp only [hv, if_false, hchild, if_true, hflag, Bool.false_eq_true]
  show (prepareIfReady V _).calls = _
  rw [prepareIfReady_calls V hP, (hP.1 _ _).1, (hP.1 _ _).2.1, (hP.1 _ _).2.2]
  simp [record]

theorem updateChannels_own_eq (V : Virtuals) (g : Nat → Option NodeBase) (s : NodeContainer) :
    updateChannels V g s s.valueTree = fullRederivation V s := by
  unfold updateChannels fullRederivation prepareIfReady
  simp

theorem prepare_calls_of_appends (V : Virtuals) (hA : V.Appends) (a : NodeContainer) :
    ∃ duringPrepare,
      (if 0 < a.originalSampleRate then
          V.prepare a.originalSampleRate a.originalBlockSize
            (a.record (Call.prepare a.originalSampleRate a.originalBlockSize))
        else a).calls
        = a.calls ++ (if 0 < a.originalSampleRate
            then Call.prepare a.originalSampleRate a.originalBlockSize :: duringPrepare
            else []) := by
  by_cases hsr : 0 < a.originalSampleRate
  · obtain ⟨duringPrepare, hP⟩ := hA.2 a.originalSampleRate a.originalBlockSize
      (a.record (Call.prepare a.originalSampleRate a.originalBlockSize))
    refine ⟨duringPrepare, ?_⟩
    rw [if_pos hsr, if_pos hsr, hP]
    simp [record]
  · exact ⟨[], by rw [if_neg hsr, if_neg hsr, List.append_nil]⟩

/-- The log of a full re-derivation whose bodies only add to the log: the layout
call with no cause, what was logged during the layout body, and then, exactly
when the sample rate stored after the layout is positive, the `prepare` call
with the stored values and what was logged during its body. -/
theorem fullRederivation_calls (V : Virtuals) (hA : V.Appends) (s : NodeContainer) :
    ∃ duringLayout duringPrepare,
      (V.channelLayoutChanged none (s.record (Call.channelLayoutChanged none))).calls
        = s.calls ++ Call.channelLayoutChanged none :: duringLayout ∧
      (fullRederivation V s).calls
        = s.calls ++ Call.channelLayoutChanged none :: duringLayout ++
          (if 0 < (V.channelLayoutChanged none
                (s.record (Call.channelLayoutChanged none))).originalSampleRate
           then Call.prepare
              (V.channelLayoutChanged none
                (s.record (Call.channelLayoutChanged none))).originalSampleRate
              (V.channelLayoutChanged none
                (s.record (Call.channelLayoutChanged none))).originalBlockSize :: duringPrepare
           else []) := by
  obtain ⟨duringLayout, hL⟩ := hA.1 none (s.record (Call.channelLayoutChanged none))
  have hL2 : (V.channelLayoutChanged none (s.record (Call.channelLayoutChanged none))).calls
      = s.calls ++ Call.channelLayoutChanged none :: duringLayout := by
    rw [hL]; simp [record]
  obtain ⟨duringPrepare, hP⟩ := prepare_calls_of_appends V hA
    (V.channelLayoutChanged none (s.record (Call.channelLayoutChanged none)))
  refine ⟨duringLayout, duringPrepare, hL2, ?_⟩
  have hfull : fullRederivation V s
      = (if 0 < (V.channelLayoutChanged none
            (s.record (Call.channelLayoutChanged none))).originalSampleRate then
          V.prepare
            (V.channelLayoutChanged none
              (s.record (Call.channelLayoutChanged none))).originalSampleRate
            (V.channelLayoutChanged none
              (s.record (Call.channelLayoutChanged none))).originalBlockSize
            ((V.channelLayoutChanged none (s.record (Call.channelLayoutChanged none))).record
              (Call.prepare
                (V.channelLayoutChanged none
                  (s.record (Call.channelLayoutChanged none))).originalSampleRate
                (V.channelLayoutChanged none
                  (s.record (Call.channelLayoutChanged none))).originalBlockSize))
        else V.channelLayoutChanged none (s.record (Call.channelLayoutChanged none))) := rfl
  rw [hfull, hP, hL2, List.append_assoc]

/-- C20: `updateChannels` called with the container's own tree entity is the
full re-derivation, whatever the bodies of the virtual methods do (re-entrant
bodies included): it calls the layout algorithm once, with no cause node, and
afterwards calls `prepare(originalSampleRate, originalBlockSize)` exactly when
`originalSampleRate > 0`.  When the bodies only add to the log, the log is: the
layout call with no cause, the calls made during the layout body, then the
`prepare` call if and only if the sample rate is positive, and the calls made
during its body. -/
theorem C20_own_change_full_rederivation (V : Virtuals) (g : Nat → Option NodeBase)
    (s : NodeContainer) :
    updateChannels V g s s.valueTree
      = (if 0 < (V.channelLayoutChanged none
              (s.record (Call.channelLayoutChanged none))).originalSampleRate
         then V.prepare
            (V.channelLayoutChanged none
              (s.record (Call.channelLayoutChanged none))).originalSampleRate
            (V.channelLayoutChanged none
              (s.record (Call.channelLayoutChanged none))).originalBlockSize
            ((V.channelLayoutChanged none (s.record (Call.channelLayoutChanged none))).record
              (Call.prepare
                (V.channelLayoutChanged none
                  (s.record (Call.channelLayoutChanged none))).originalSampleRate
                (V.channelLayoutChanged none
                  (s.record (Call.channelLayoutChanged none))).originalBlockSize))
         else V.channelLayoutChanged none (s.record (Call.channelLayoutChanged none))) ∧
    (V.Appends → ∃ duringLayout duringPrepare,
      (updateChannels V g s s.valueTree).calls
        = s.calls ++ Call.channelLayoutChanged none :: duringLayout ++
          (if 0 < (V.channelLayoutChanged none
                (s.record (Call.channelLayoutChanged none))).originalSampleRate
           then Call.prepare
              (V.channelLayoutChanged none
                (s.record (Call.channelLayoutChanged none))).originalSampleRate
              (V.channelLayoutChanged none
                (s.record (Call.channelLayoutChanged none))).originalBlockSize :: duringPrepare
           else [])) := by
  constructor
  · rw [updateChannels_own_eq]
    rfl
  · intro hA
    obtain ⟨duringLayout, duringPrepare, _, h⟩ := fullRederivation_calls V hA s
    exact ⟨duringLayout, duringPrepare, by rw [updateChannels_own_eq]; exact h⟩

theorem prepareIfReady_appends (V : Virtuals) (hA : V.Appends) (a : NodeContainer)
    (base : List Call) (h : ∃ during, a.calls = base ++ during) :
    ∃ during, (prepareIfReady V a).calls = base ++ during := by
  obtain ⟨duringLayout, hL⟩ := h
  obtain ⟨duringPrepare, hP⟩ := prepare_calls_of_appends V hA a
  refine ⟨duringLayout ++ (if 0 < a.originalSampleRate
      then Call.prepare a.originalSampleRate a.originalBlockSize :: duringPrepare else []), ?_⟩
  unfold prepareIfReady
  rw [hP, hL, List.append_assoc]

theorem updateChannels_appends (V : Virtuals) (hA : V.Appends) (g : Nat → Option NodeBase)
    (s : NodeContainer) (v : Nat) :
    ∃ during, (updateChannels V g s v).calls = s.calls ++ during := by
  by_cases hown : v = s.valueTree
  · subst hown
    obtain ⟨duringLayout, duringPrepare, _, h⟩ := fullRederivation_calls V hA s
    exact ⟨_, by rw [updateChannels_own_eq, h, List.append_assoc]⟩
  · by_cases hchild : v ∈ s.nodeTree
    · by_cases hflag : s.channelRecursionProtection = true
      · exact ⟨[], by simp [updateChannels, hown, hchild, hflag]⟩
      · have hlayout : ∃ during,
            (V.channelLayoutChanged ((g v).map NodeBase.id)
              (record { s with channelRecursionProtection := true }
                (Call.channelLayoutChanged ((g v).map NodeBase.id)))).calls
              = s.calls ++ during := by
          obtain ⟨duringLayout, hL⟩ := hA.1 ((g v).map NodeBase.id)
            (record { s with channelRecursionProtection := true }
              (Call.channelLayoutChanged ((g v).map NodeBase.id)))
          exact ⟨Call.channelLayoutChanged ((g v).map NodeBase.id) :: duringLayout, by
            rw [hL]; simp [record]⟩
        obtain ⟨during, hd⟩ := prepareIfReady_appends V hA _ s.calls hlayout
        have hflag2 : s.channelRecursionProtection = false := by simpa using hflag
        refine ⟨during, ?_⟩
        rw [← hd]
        unfold updateChannels
        simp only [hown, if_false, hchild, if_true, hflag2, Bool.false_eq_true]
    · exact ⟨[], by simp [updateChannels, hown, hchild]⟩

/-- Virtual methods that re-enter `updateChannels` from their layout body only
add to the log when the methods involved do. -/
theorem reenterOnLayout_appends (V Vin : Virtuals) (hV : V.Appends) (hVin : Vin.Appends)
    (g : Nat → Option NodeBase) (w : Nat) : (V.reenterOnLayout Vin g w).Appends := by
  refine ⟨?_, hV.2⟩
  intro cause s
  obtain ⟨inner, hin⟩ := updateChannels_appends Vin hVin g s w
  obtain ⟨outer, hout⟩ := hV.1 cause (updateChannels Vin g s w)
  exact ⟨inner ++ outer, by
    show (V.channelLayoutChanged cause (updateChannels Vin g s w)).calls = _
    rw [hout, hin, List.append_assoc]⟩

/-- Virtual methods that re-enter `updateChannels` from their layout body keep
the membership of the node list when the methods involved do. -/
theorem reenterOnLayout_keepNodeList (V Vin : Virtuals) (hV : V.KeepNodeList)
    (hVin : Vin.KeepNodeList) (g : Nat → Option NodeBase) (w : Nat) :
    (V.reenterOnLayout Vin g w).KeepNodeList := by
  refine ⟨?_, hV.2⟩
  intro cause s
  show (V.channelLayoutChanged cause (updateChannels Vin g s w)).nodes.map NodeBase.id = _
  rw [hV.1, updateChannels_ids Vin hVin]

/-- C20, instance: the prepared example container (44100 Hz, 512 samples) with
a layout body that re-enters for the child entity 11, as the channel listener
does when the layout writes that child's count: the call is the full
re-derivation, and the log shows the outer layout call with no cause, the
re-entrant recompute (layout with cause 1 and its `prepare`) and the outer
`prepare`; without a sample rate no `prepare` is called. -/
theorem C20_own_change_full_rederivation_witness :
    updateChannels
        (MultiChannelNode.virtuals.reenterOnLayout MultiChannelNode.virtuals
          Examples.getNodeForValueTree 11)
        Examples.getNodeForValueTree Examples.container 100
      = Virtuals.prepare
          (MultiChannelNode.virtuals.reenterOnLayout MultiChannelNode.virtuals
            Examples.getNodeForValueTree 11) 44100 512
          (record
            (Virtuals.channelLayoutChanged
              (MultiChannelNode.virtuals.reenterOnLayout MultiChannelNode.virtuals
                Examples.getNodeForValueTree 11) none
              (record Examples.container (Call.channelLayoutChanged none)))
            (Call.prepare 44100 512)) ∧
    (updateChannels
        (MultiChannelNode.virtuals.reenterOnLayout MultiChannelNode.virtuals
          Examples.getNodeForValueTree 11)
        Examples.getNodeForValueTree Examples.container 100).calls
      = [Call.channelLayoutChanged none, Call.channelLayoutChanged (some 1),
         Call.prepare 44100 512, Call.prepare 44100 512] ∧
    (updateChannels
        (MultiChannelNode.virtuals.reenterOnLayout MultiChannelNode.virtuals
          Examples.getNodeForValueTree 11)
        Examples.getNodeForValueTree { Examples.container with originalSampleRate := 0 }
        100).calls
      = [Call.channelLayoutChanged none, Call.channelLayoutChanged (some 1)] :=
  ⟨(C20_own_change_full_rederivation
      (MultiChannelNode.virtuals.reenterOnLayout MultiChannelNode.virtuals
        Examples.getNodeForValueTree 11)
      Examples.getNodeForValueTree Examples.container).1.trans rfl,
   by decide, by decide⟩

theorem map_insertIdx_id (i : Nat) (node : NodeBase) (nodes : List NodeBase) :
    (nodes.insertIdx i node).map NodeBase.id = (nodes.map NodeBase.id).insertIdx i node.id := by
  induction i generalizing nodes with
  | zero => cases nodes <;> rfl
  | succ j ih =>
    cases nodes with
    | nil => rfl
    | cons n rest => simp [List.insertIdx_succ_cons, ih]

theorem insertNode_ids (nodes : List NodeBase) (i : Nat) (node : NodeBase)
    (hi : i ≤ nodes.length) :
    (insertNode nodes (i : Int) node).map NodeBase.id
      = (nodes.map NodeBase.id).insertIdx i node.id := by
  unfold insertNode
  have h : (0 : Int) ≤ i ∧ (i : Int) ≤ nodes.length := ⟨by omega, by omega⟩
  simp only [h, and_self, if_true, Int.toNat_ofNat]
  exact map_insertIdx_id i node nodes

theorem MultiChannelNode.virtuals_appends : MultiChannelNode.virtuals.Appends :=
  ⟨fun _ _ => ⟨[], by simp [MultiChannelNode.virtuals]⟩,
   fun _ _ _ => ⟨[], by simp [MultiChannelNode.virtuals]⟩⟩

/-- C13: when the node of the added entity is not yet in the node list and the
entity sits at index i of the node tree, with i at most the length of the node
list, `nodeAddedOrRemoved(child, true)` inserts the node at position i and then
runs the full re-derivation on that list: the layout algorithm with no cause
node, then `prepare` when a sample rate is set.  This holds whatever the bodies
of the virtual methods do.  When they keep the membership of the node list, the
node list afterwards is the old one with the node inserted at position i; when
they only add to the log, the first call logged is the layout call with no
cause. -/
theorem C13_node_added_inserts_at_tree_index (V : Virtuals) (g : Nat → Option NodeBase)
    (s : NodeContainer) (child : Nat) (node : NodeBase) (i : Nat) (hres : g child = some node)
    (hnew : containsNode s.nodes node = false)
    (hidx : ValueTree.indexOf s.nodeTree child = (i : Int)) (hi : i ≤ s.nodes.length) :
    nodeAddedOrRemoved V g s child true
      = fullRederivation V { s with nodes := s.nodes.insertIdx i node } ∧
    (V.KeepNodeList →
      (nodeAddedOrRemoved V g s child true).nodes.map NodeBase.id
        = (s.nodes.map NodeBase.id).insertIdx i node.id ∧
      ((nodeAddedOrRemoved V g s child true).nodes.map NodeBase.id).length
        = s.nodes.length + 1) ∧
    (V.Appends → ∃ during,
      (nodeAddedOrRemoved V g s child true).calls
        = s.calls ++ Call.channelLayoutChanged none :: during) := by
  have hins : insertNode s.nodes (i : Int) node = s.nodes.insertIdx i node := by
    have h : (0 : Int) ≤ i ∧ (i : Int) ≤ s.nodes.length := ⟨by omega, by omega⟩
    simp only [insertNode, h, and_self, if_true, Int.toNat_ofNat]
  have h1 : nodeAddedOrRemoved V g s child true
      = fullRederivation V { s with nodes := s.nodes.insertIdx i node } := by
    rw [← updateChannels_own_eq V g { s with nodes := s.nodes.insertIdx i node }]
    simp [nodeAddedOrRemoved, hres, hnew, hidx, hins]
  refine ⟨h1, ?_, ?_⟩
  · intro hK
    have hids : (nodeAddedOrRemoved V g s child true).nodes.map NodeBase.id
        = (s.nodes.map NodeBase.id).insertIdx i node.id := by
      rw [h1, ← updateChannels_own_eq V g { s with nodes := s.nodes.insertIdx i node },
        updateChannels_ids V hK]
      exact map_insertIdx_id i node s.nodes
    refine ⟨hids, ?_⟩
    rw [hids, List.length_insertIdx _ _ (by simpa using hi)]
    simp
  · intro hA
    obtain ⟨duringLayout, duringPrepare, _, h⟩ :=
      fullRederivation_calls V hA { s with nodes := s.nodes.insertIdx i node }
    exact ⟨_, by rw [h1, h, List.append_assoc]; rfl⟩

/-- C13, instance: the entity 13 of `nodeC` sits at index 1 of the node tree and
its node is inserted between the two nodes of the example container; the
layout body re-enters for the child entity 11, so the log holds the layout call
with no cause first, then the re-entrant recompute and the outer `prepare`. -/
theorem C13_node_added_inserts_at_tree_index_witness :
    (nodeAddedOrRemoved
        (MultiChannelNode.virtuals.reenterOnLayout MultiChannelNode.virtuals
          Examples.getNodeForValueTree 11)
        Examples.getNodeForValueTree
        { Examples.container with nodeTree := [11, 13, 12] } 13 true).nodes.map NodeBase.id
      = [1, 3, 2] ∧
    (nodeAddedOrRemoved
        (MultiChannelNode.virtuals.reenterOnLayout MultiChannelNode.virtuals
          Examples.getNodeForValueTree 11)
        Examples.getNodeForValueTree
        { Examples.container with nodeTree := [11, 13, 12] } 13 true).calls
      = [Call.channelLayoutChanged none, Call.channelLayoutChanged (some 1),
         Call.prepare 44100 512, Call.prepare 44100 512] ∧
    (nodeAddedOrRemoved
        (MultiChannelNode.virtuals.reenterOnLayout MultiChannelNode.virtuals
          Examples.getNodeForValueTree 11)
        Examples.getNodeForValueTree
        { Examples.container with nodeTree := [11, 13, 12] } 13 true).nodes.map
        NodeBase.numChannels
      = [1, 2, 1] :=
  ⟨((C13_node_added_inserts_at_tree_index
      (MultiChannelNode.virtuals.reenterOnLayout MultiChannelNode.virtuals
        Examples.getNodeForValueTree 11)
      Examples.getNodeForValueTree { Examples.container with nodeTree := [11, 13, 12] } 13
      Examples.nodeC 1 (by decide) (by decide) (by decide) (by decide)).2.1
      (reenterOnLayout_keepNodeList MultiChannelNode.virtuals MultiChannelNode.virtuals
        MultiChannelNode.virtuals_keepNodeList MultiChannelNode.virtuals_keepNodeList
        Examples.getNodeForValueTree 11)).1,
   by decide, by decide⟩

/-- C14: for an entity that resolves to a node, `nodeAddedOrRemoved(child,
false)` removes every occurrence of that node from the node list and then runs
the full re-derivation on that list: the layout algorithm with no cause node,
then `prepare` when a sample rate is set.  This holds whatever the bodies of
the virtual methods do.  When they keep the membership of the node list, the
node list afterwards is the old one without any occurrence of the node, the
other nodes in their order; when they only add to the log, the first call
logged is the layout call with no cause. -/
theorem C14_node_removed_removes_every_occurrence (V : Virtuals) (g : Nat → Option NodeBase)
    (s : NodeContainer) (child : Nat) (node : NodeBase) (hres : g child = some node) :
    nodeAddedOrRemoved V g s child false
      = fullRederivation V { s with nodes := s.nodes.filter (fun n => n.id != node.id) } ∧
    (V.KeepNodeList →
      (nodeAddedOrRemoved V g s child false).nodes.map NodeBase.id
        = (s.nodes.map NodeBase.id).filter (fun i => i != node.id)) ∧
    (V.Appends → ∃ during,
      (nodeAddedOrRemoved V g s child false).calls
        = s.calls ++ Call.channelLayoutChanged none :: during) := by
  have h1 : nodeAddedOrRemoved V g s child false
      = fullRederivation V { s with nodes := s.nodes.filter (fun n => n.id != node.id) } := by
    rw [← updateChannels_own_eq V g
      { s with nodes := s.nodes.filter (fun n => n.id != node.id) }]
    simp [nodeAddedOrRemoved, hres, removeAllInstancesOf]
  refine ⟨h1, ?_, ?_⟩
  · intro hK
    rw [h1, ← updateChannels_own_eq V g
      { s with nodes := s.nodes.filter (fun n => n.id != node.id) }, updateChannels_ids V hK]
    exact removeAllInstancesOf_ids s.nodes node
  · intro hA
    obtain ⟨duringLayout, duringPrepare, _, h⟩ :=
      fullRederivation_calls V hA { s with nodes := s.nodes.filter (fun n => n.id != node.id) }
    exact ⟨_, by rw [h1, h, List.append_assoc]; rfl⟩

/-- C14, instance: a node list that holds `nodeA` twice loses both occurrences
when the entity 11 is removed; the layout body re-enters for the child entity
12, and the remaining node is given all four channels. -/
theorem C14_node_removed_removes_every_occurrence_witness :
    (nodeAddedOrRemoved
        (MultiChannelNode.virtuals.reenterOnLayout MultiChannelNode.virtuals
          Examples.getNodeForValueTree 12)
        Examples.getNodeForValueTree
        { Examples.container with nodes := [Examples.nodeA, Examples.nodeB, Examples.nodeA] }
        11 false).nodes.map NodeBase.id = [2] ∧
    (nodeAddedOrRemoved
        (MultiChannelNode.virtuals.reenterOnLayout MultiChannelNode.virtuals
          Examples.getNodeForValueTree 12)
        Examples.getNodeForValueTree
        { Examples.container with nodes := [Examples.nodeA, Examples.nodeB, Examples.nodeA] }
        11 false).calls
      = [Call.channelLayoutChanged none, Call.channelLayoutChanged (some 2),
         Call.prepare 44100 512, Call.prepare 44100 512] ∧
    (nodeAddedOrRemoved
        (MultiChannelNode.virtuals.reenterOnLayout MultiChannelNode.virtuals
          Examples.getNodeForValueTree 12)
        Examples.getNodeForValueTree
        { Examples.container with nodes := [Examples.nodeA, Examples.nodeB, Examples.nodeA] }
        11 false).nodes.map NodeBase.numChannels = [4] :=
  ⟨(C14_node_removed_removes_every_occurrence
      (MultiChannelNode.virtuals.reenterOnLayout MultiChannelNode.virtuals
        Examples.getNodeForValueTree 12)
      Examples.getNodeForValueTree
      { Examples.container with nodes := [Examples.nodeA, Examples.nodeB, Examples.nodeA] }
      11 Examples.nodeA (by decide)).2.1
      (reenterOnLayout_keepNodeList MultiChannelNode.virtuals MultiChannelNode.virtuals
        MultiChannelNode.virtuals_keepNodeList MultiChannelNode.virtuals_keepNodeList
        Examples.getNodeForValueTree 12),
   by decide, by decide⟩

theorem distributePass_keeps_cause (c : Nat) (share : Int) (nodes : List NodeBase) (pool : Int)
    (i : Nat) (n : NodeBase) (hn : nodes[i]? = some n) (hid : n.id = c) :
    (MultiChannelNode.distributePass (some c) share nodes pool).nodes[i]? = some n := by
  induction nodes generalizing pool i with
  | nil => simp at hn
  | cons m rest ih =>
    by_cases hf : m.hasFixChannelAmount = true
    · rw [MultiChannelNode.distributePass_cons_fix _ _ _ _ _ hf]
      cases i with
      | zero => simpa using hn
      | succ j =>
        rw [List.getElem?_cons_succ]
        exact ih _ j (by simpa using hn)
    · by_cases hc : some m.id = some c
      · rw [MultiChannelNode.distributePass_cons_cause _ _ _ _ _ hf hc]
        cases i with
        | zero => simpa using hn
        | succ j =>
          rw [List.getElem?_cons_succ]
          exact ih _ j (by simpa using hn)
      · rw [MultiChannelNode.distributePass_cons_assign _ _ _ _ _ hf hc]
        cases i with
        | zero =>
          simp only [List.getElem?_cons_zero, Option.some.injEq] at hn
          rw [hn, hid] at hc
          exact absurd rfl hc
        | succ j =>
          rw [List.getElem?_cons_succ]
          exact ih _ j (by simpa using hn)

theorem channelLayoutChanged_keeps_cause (C : Int) (c : Nat) (nodes : List NodeBase)
    (i : Nat) (n : NodeBase) (hn : nodes[i]? = some n) (hid : n.id = c) :
    (MultiChannelNode.channelLayoutChanged C nodes (some c)).nodes[i]? = some n := by
  unfold MultiChannelNode.channelLayoutChanged
  by_cases hlen : nodes.length = 0
  · simpa [hlen] using hn
  · simp only [hlen, if_false]
    by_cases hk : 0 < (MultiChannelNode.lockedPass nodes (C, (nodes.length : Int))).2
    · simp only [hk, if_true]
      exact distributePass_keeps_cause c _ nodes _ i n hn hid
    · simpa [hk] using hn

theorem updateChannels_child_nodes (g : Nat → Option NodeBase) (s : NodeContainer) (v : Nat)
    (hv : v ≠ s.valueTree) (hchild : v ∈ s.nodeTree)
    (hflag : s.channelRecursionProtection = false) :
    (updateChannels MultiChannelNode.virtuals g s v).nodes
      = (MultiChannelNode.channelLayoutChanged s.numChannels s.nodes
          ((g v).map NodeBase.id)).nodes := by
  unfold updateChannels
  simp only [hv, if_false, hchild, if_true, hflag, Bool.false_eq_true]
  show (prepareIfReady MultiChannelNode.virtuals _).nodes = _
  unfold prepareIfReady
  split_ifs <;> rfl

/-- C19: when the change of the channel-count property of a child c of a
MultiChannelNode reaches `updateChannels` with the guard flag clear, the layout
algorithm is run once with c as the cause node (then `prepare` when a sample
rate is set), and c has the same channel count after the recompute as before
it. -/
theorem C19_originating_child_not_overwritten (g : Nat → Option NodeBase) (s : NodeContainer)
    (v : Nat) (c : NodeBase) (hv : v ≠ s.valueTree) (hchild : v ∈ s.nodeTree)
    (hres : g v = some c) (hflag : s.channelRecursionProtection = false) :
    (updateChannels MultiChannelNode.virtuals g s v).calls
      = s.calls ++ Call.channelLayoutChanged (some c.id) ::
          (if 0 < s.originalSampleRate
            then [Call.prepare s.originalSampleRate s.originalBlockSize] else []) ∧
    ∀ (i : Nat) (n : NodeBase), s.nodes[i]? = some n → n.id = c.id →
      (updateChannels MultiChannelNode.virtuals g s v).nodes[i]? = some n := by
  constructor
  · have h := updateChannels_child_calls MultiChannelNode.virtuals
      MultiChannelNode.virtuals_passive g s v hv hchild hflag
    rw [hres] at h
    exact h
  · intro i n hn hid
    rw [updateChannels_child_nodes g s v hv hchild hflag, hres]
    exact channelLayoutChanged_keeps_cause s.numChannels c.id s.nodes i n hn hid

/-- C19, instance: the first child of a four-channel container changed its
count to 3; the recompute runs with it as cause, keeps its 3 channels and
gives the remaining channel to its sibling. -/
theorem C19_originating_child_not_overwritten_witness :
    (updateChannels MultiChannelNode.virtuals Examples.getNodeForValueTree
        { Examples.container with
            nodes := [{ Examples.nodeA with numChannels := 3 }, Examples.nodeB] } 11).calls
      = [Call.channelLayoutChanged (some 1), Call.prepare 44100 512] ∧
    (updateChannels MultiChannelNode.virtuals Examples.getNodeForValueTree
        { Examples.container with
            nodes := [{ Examples.nodeA with numChannels := 3 }, Examples.nodeB] } 11).nodes[0]?
      = some { Examples.nodeA with numChannels := 3 } ∧
    (updateChannels MultiChannelNode.virtuals Examples.getNodeForValueTree
        { Examples.container with
            nodes := [{ Examples.nodeA with numChannels := 3 }, Examples.nodeB] } 11).nodes[1]?
      = some { Examples.nodeB with numChannels := 1 } :=
  ⟨(C19_originating_child_not_overwritten Examples.getNodeForValueTree
      { Examples.container with
          nodes := [{ Examples.nodeA with numChannels := 3 }, Examples.nodeB] }
      11 Examples.nodeA (by decide) (by decide) (by decide) (by decide)).1,
   (C19_originating_child_not_overwritten Examples.getNodeForValueTree
      { Examples.container with
          nodes := [{ Examples.nodeA with numChannels := 3 }, Examples.nodeB] }
      11 Examples.nodeA (by decide) (by decide) (by decide) (by decide)).2 0
      { Examples.nodeA with numChannels := 3 } (by decide) (by decide),
   by decide⟩

theorem removeParameterFor_eq_eraseP (child : Nat) (ps : List Parameter) :
    removeParameterFor child ps = ps.eraseP (fun p => decide (p.data = child)) := by
  induction ps with
  | nil => rfl
  | cons p rest ih =>
    by_cases h : p.data = child
    · simp [removeParameterFor, h]
    · simp [removeParameterFor, h, ih]

theorem removeParameterFor_nodup (child : Nat) (ps : List Parameter)
    (hnodup : (ps.map Parameter.data).Nodup) :
    ∀ p ∈ removeParameterFor child ps, p.data ≠ child := by
  induction ps with
  | nil => simp [removeParameterFor]
  | cons q rest ih =>
    rw [List.map_cons, List.nodup_cons] at hnodup
    by_cases h : q.data = child
    · intro p hp hpc
      simp only [removeParameterFor, h, if_true] at hp
      apply hnodup.1
      rw [h, ← hpc]
      exact List.mem_map_of_mem _ hp
    · intro p hp
      simp only [removeParameterFor, h, if_false, List.mem_cons] at hp
      rcases hp with rfl | hp
      · exact h
      · exact ih hnodup.2 p hp

/-- C15: `parameterAddedOrRemoved(child, false)` removes the first parameter
whose backing tree entity is `child` and keeps all others in their order; the
result does not depend on the parameter tree (so not on the index of `child` in
it); the list is unchanged when no parameter is backed by `child`; and when no
two parameters share a backing entity, no parameter backed by `child` is left. -/
theorem C15_parameter_removed_by_identity (s : NodeContainer) (child : Nat)
    (newParameterId : String) :
    (∀ (before : List Parameter) (p : Parameter) (after : List Parameter),
      s.parameters = before ++ p :: after → p.data = child →
      (∀ q ∈ before, q.data ≠ child) →
      (parameterAddedOrRemoved s child false newParameterId).parameters = before ++ after) ∧
    (∀ parameterTree : List Nat,
      (parameterAddedOrRemoved { s with parameterTree := parameterTree } child false
        newParameterId).parameters
        = (parameterAddedOrRemoved s child false newParameterId).parameters) ∧
    ((∀ q ∈ s.parameters, q.data ≠ child) →
      (parameterAddedOrRemoved s child false newParameterId).parameters = s.parameters) ∧
    ((s.parameters.map Parameter.data).Nodup →
      ∀ q ∈ (parameterAddedOrRemoved s child false newParameterId).parameters,
        q.data ≠ child) := by
  have hpar : (parameterAddedOrRemoved s child false newParameterId).parameters
      = s.parameters.eraseP (fun p => decide (p.data = child)) := by
    simp [parameterAddedOrRemoved, removeParameterFor_eq_eraseP]
  refine ⟨?_, ?_, ?_, ?_⟩
  · intro before p after hsplit hp hbefore
    rw [hpar, hsplit, List.eraseP_append_right _ (by simpa using hbefore),
      List.eraseP_cons_of_pos (by simpa using hp)]
  · intro parameterTree
    rfl
  · intro hnone
    rw [hpar]
    exact List.eraseP_of_forall_not (by simpa using hnone)
  · intro hnodup
    simpa [parameterAddedOrRemoved] using removeParameterFor_nodup child s.parameters hnodup

/-- C15, instance: the parameter backed by entity 22 is second in the parameter
list while entity 22 is no child of the parameter tree any more; it is removed,
the parameters backed by 21 and 23 stay. -/
theorem C15_parameter_removed_by_identity_witness :
    (parameterAddedOrRemoved
        { Examples.container with
            parameterTree := [21, 23],
            parameters := [{ id := "A", data := 21 }, { id := "B", data := 22 },
                           { id := "C", data := 23 }] }
        22 false "").parameters
      = [{ id := "A", data := 21 }] ++ [{ id := "C", data := 23 }] :=
  (C15_parameter_removed_by_identity
      { Examples.container with
          parameterTree := [21, 23],
          parameters := [{ id := "A", data := 21 }, { id := "B", data := 22 },
                         { id := "C", data := 23 }] }
      22 "").1 [{ id := "A", data := 21 }] { id := "B", data := 22 } [{ id := "C", data := 23 }]
    rfl rfl (by decide)

end NodeContainer

end scriptnode

namespace scriptnode

/-! ## MacroParameter: rebuilding the callback -/

namespace MacroParameter

theorem State.rebuildCallback_idem (H : DspHelpers) (network : List NodeBase) (st : State) :
    (st.rebuildCallback H network).rebuildCallback H network = st.rebuildCallback H network := by
  rfl

/-- C11: rebuilding the callback a second time, with the connection list and
all ranges unchanged, leaves the parameter object as the first rebuild left it;
for every sequence of inputs and every world the callback then performs the
same operations on the targets as the callback of a single rebuild, whatever
callback and input range the object held before. -/
theorem C11_rebuild_twice_same_effects (H : DspHelpers) (network : List NodeBase) (st : State)
    (previousRange : NormalisableRange) (previousCallback : ParameterCallback)
    (inputs : List ℚ) (w : World) :
    runInputs ((st.rebuildCallback H network).rebuildCallback H network).callback inputs w
      = runInputs (st.rebuildCallback H network).callback inputs w ∧
    (State.rebuildCallback H network
        { st with inputRange := previousRange, callback := previousCallback }).callback
      = (st.rebuildCallback H network).callback ∧
    (st.rebuildCallback H network).connectionTree = st.connectionTree ∧
    (st.rebuildCallback H network).dataRange = st.dataRange := by
  refine ⟨?_, rfl, rfl, rfl⟩
  rw [State.rebuildCallback_idem]

theorem validConnections_nil_of_unresolved (network : List NodeBase) (r : NormalisableRange)
    (cTree : List ConnectionData) (hnone : ∀ d ∈ cTree, targetResolves network d = false) :
    validConnections network r cTree = [] := by
  rw [validConnections_eq, List.filter_eq_nil_iff.mpr (by simpa using hnone)]
  rfl

/-- C12: when no connection of the list is valid (the list is empty or no
target resolves), the callback installed by `rebuildCallback` does nothing:
invoked with any input in any world it succeeds and leaves the world, that is
every bypass state and parameter value, as it was. -/
theorem C12_inert_parameter (H : DspHelpers) (network : List NodeBase) (r : NormalisableRange)
    (cTree : List ConnectionData) (hnone : ∀ d ∈ cTree, targetResolves network d = false)
    (x : ℚ) (w : World) :
    (rebuildCallback H network r cTree).callback x w = some w ∧
    (rebuildCallback H network r cTree).callback = emptyCallback ∧
    (rebuildCallback H network r cTree).connections = [] := by
  have hnil := validConnections_nil_of_unresolved network r cTree hnone
  refine ⟨?_, ?_, ?_⟩
  · rw [rebuildCallback_callback, hnil]; rfl
  · unfold rebuildCallback
    simp [hnil]
  · rw [rebuildCallback_connections, hnil]

/-- C12, instance: a connection to a node that does not exist and one to a
parameter that its node does not have. -/
theorem C12_inert_parameter_witness :
    (∀ d ∈ [Examples.lostNode, Examples.lostParameter],
      targetResolves Examples.network d = false) ∧
    (rebuildCallback Examples.helpers Examples.network { start := 0, stop := 10 }
        [Examples.lostNode, Examples.lostParameter]).callback (7 / 2) Examples.world
      = some Examples.world :=
  ⟨by decide,
   (C12_inert_parameter Examples.helpers Examples.network { start := 0, stop := 10 }
      [Examples.lostNode, Examples.lostParameter] (by decide) (7 / 2) Examples.world).1⟩

theorem jlimit_bounds (lower upper x : ℚ) (h : lower ≤ upper) :
    lower ≤ jlimit lower upper x ∧ jlimit lower upper x ≤ upper := by
  unfold jlimit
  split_ifs with h1 h2
  · exact ⟨le_refl _, h⟩
  · exact ⟨h, le_refl _⟩
  · exact ⟨not_lt.mp h1, not_lt.mp h2⟩

/-- C16: for a connection whose target node resolves and whose target parameter
id is the bypass sentinel, the constructor marks the node as the one to be
bypassed and sets the multiplier to the upper bound u of the owning macro
parameter's range clamped to [1, 9000]: 1 if u < 1, 9000 if u > 9000, u
otherwise; the multiplier lies in [1, 9000]. -/
theorem C16_bypass_multiplier_clamped (network : List NodeBase) (originalRange : NormalisableRange)
    (d : ConnectionData) (targetNode : NodeBase)
    (hnode : network.find? (fun n => n.nodeId == d.nodeId) = some targetNode)
    (hbypass : d.parameterId = PropertyIds.Bypassed) :
    (Connection.create network originalRange d).nodeToBeBypassed = some targetNode.id ∧
    (Connection.create network originalRange d).rangeMultiplerForBypass
      = (if originalRange.stop < 1 then 1
         else if 9000 < originalRange.stop then 9000 else originalRange.stop) ∧
    1 ≤ (Connection.create network originalRange d).rangeMultiplerForBypass ∧
    (Connection.create network originalRange d).rangeMultiplerForBypass ≤ 9000 := by
  have hm : (Connection.create network originalRange d).rangeMultiplerForBypass
      = jlimit 1 9000 originalRange.stop := by
    simp [Connection.create, hnode, hbypass]
  refine ⟨?_, ?_, ?_, ?_⟩
  · simp [Connection.create, hnode, hbypass]
  · rw [hm]; rfl
  · rw [hm]; exact (jlimit_bounds 1 9000 _ (by norm_num)).1
  · rw [hm]; exact (jlimit_bounds 1 9000 _ (by norm_num)).2

/-- C16, instance: the bypass connection to `fx` under a macro parameter with
the range [0, 20000] gets the multiplier 9000. -/
theorem C16_bypass_multiplier_clamped_witness :
    (Connection.create Examples.network { start := 0, stop := 20000 }
        Examples.bypassFx).nodeToBeBypassed = some 2 ∧
    (Connection.create Examples.network { start := 0, stop := 20000 }
        Examples.bypassFx).rangeMultiplerForBypass = 9000 :=
  ⟨(C16_bypass_multiplier_clamped Examples.network { start := 0, stop := 20000 }
      Examples.bypassFx Examples.fx (by decide) (by decide)).1,
   by
    rw [(C16_bypass_multiplier_clamped Examples.network { start := 0, stop := 20000 }
      Examples.bypassFx Examples.fx (by decide) (by decide)).2.1]
    norm_num⟩

end MacroParameter

end scriptnode

namespace scriptnode

/-! ## MultiChannelNode: edge cases of the distribution -/

namespace MultiChannelNode

/-- The layout run in terms of the division it performs: without a division
nothing is touched, otherwise the second loop runs with the quotient. -/
theorem channelLayoutChanged_eq_divisor (C : Int) (nodes : List NodeBase) (cause : Option Nat) :
    channelLayoutChanged C nodes cause
      = (match numPerNodeDivisor C nodes with
         | none => ⟨nodes, []⟩
         | some d =>
           distributePass cause
             (Int.tdiv (lockedPass nodes (C, (nodes.length : Int))).1 d) nodes
             (lockedPass nodes (C, (nodes.length : Int))).1) := by
  unfold channelLayoutChanged numPerNodeDivisor
  by_cases hlen : nodes.length = 0
  · simp [hlen]
  · by_cases hk : 0 < (lockedPass nodes (C, (nodes.length : Int))).2
    · simp [hlen, hk]
    · simp [hlen, hk]

/-- C25: a MultiChannelNode without children does no layout work: for every
channel count and cause, `channelLayoutChanged` returns the empty child list,
calls no `setNumChannels` and does not reach the division. -/
theorem C25_empty_container_no_layout_work (C : Int) (cause : Option Nat) :
    channelLayoutChanged C [] cause = ⟨[], []⟩ ∧ numPerNodeDivisor C [] = none := by
  constructor <;> rfl

/-- C26: with total C, fixed counts summing to F <= C, k >= 1 flexible children
and no cause node, the children's channel counts after `channelLayoutChanged`
sum to C - ((C - F) mod k); the sum never exceeds C and equals C exactly when
k divides C - F. -/
theorem C26_exact_total_after_distribution (C : Int) (nodes : List NodeBase)
    (hF : fixedChannels nodes ≤ C) (hk : 1 ≤ numFlexible nodes) :
    totalChannels (channelLayoutChanged C nodes none).nodes
      = C - (C - fixedChannels nodes) % (numFlexible nodes : Int) ∧
    totalChannels (channelLayoutChanged C nodes none).nodes ≤ C ∧
    (totalChannels (channelLayoutChanged C nodes none).nodes = C
      ↔ (numFlexible nodes : Int) ∣ C - fixedChannels nodes) := by
  have hkpos : (0 : Int) < numFlexible nodes := by exact_mod_cast hk
  have hdiv : Int.tdiv (C - fixedChannels nodes) (numFlexible nodes)
      = (C - fixedChannels nodes) / (numFlexible nodes : Int) :=
    Int.tdiv_eq_ediv (by omega) (by omega)
  have hsum : totalChannels (channelLayoutChanged C nodes none).nodes
      = C - (C - fixedChannels nodes) % (numFlexible nodes : Int) := by
    rw [channelLayoutChanged_none C nodes hF hk, totalChannels_evenly, hdiv]
    have := Int.emod_add_ediv (C - fixedChannels nodes) (numFlexible nodes : Int)
    linarith [mul_comm ((C - fixedChannels nodes) / (numFlexible nodes : Int))
      (numFlexible nodes : Int)]
  have hmod : 0 ≤ (C - fixedChannels nodes) % (numFlexible nodes : Int) :=
    Int.emod_nonneg _ (ne_of_gt hkpos)
  refine ⟨hsum, by omega, ?_⟩
  rw [hsum, Int.dvd_iff_emod_eq_zero]
  constructor <;> intro h <;> omega

/-- C26, instance: five channels, one fixed child with two channels and two
flexible children: the counts sum to 5 - (3 mod 2) = 4. -/
theorem C26_exact_total_after_distribution_witness :
    fixedChannels
        [{ id := 1, valueTree := 11, numChannels := 0, fixChannelAmount := false },
         { id := 2, valueTree := 12, numChannels := 2, fixChannelAmount := true },
         { id := 3, valueTree := 13, numChannels := 0, fixChannelAmount := false }] ≤ 5 ∧
    totalChannels (channelLayoutChanged 5
        [{ id := 1, valueTree := 11, numChannels := 0, fixChannelAmount := false },
         { id := 2, valueTree := 12, numChannels := 2, fixChannelAmount := true },
         { id := 3, valueTree := 13, numChannels := 0, fixChannelAmount := false }] none).nodes
      = 5 - (5 - 2) % 2 :=
  ⟨by decide,
   (C26_exact_total_after_distribution 5
      [{ id := 1, valueTree := 11, numChannels := 0, fixChannelAmount := false },
       { id := 2, valueTree := 12, numChannels := 2, fixChannelAmount := true },
       { id := 3, valueTree := 13, numChannels := 0, fixChannelAmount := false }]
      (by decide) (by decide)).1⟩

theorem distributePass_keeps_fixed (cause : Option Nat) (share : Int) (nodes : List NodeBase)
    (pool : Int) (i : Nat) (n : NodeBase) (hn : nodes[i]? = some n)
    (hfix : n.hasFixChannelAmount = true) :
    (distributePass cause share nodes pool).nodes[i]? = some n := by
  induction nodes generalizing pool i with
  | nil => simp at hn
  | cons m rest ih =>
    cases i with
    | zero =>
      simp only [List.getElem?_cons_zero, Option.some.injEq] at hn
      rw [hn, distributePass_cons_fix _ _ _ _ _ hfix]
      simp
    | succ j =>
      have hj : rest[j]? = some n := by simpa using hn
      by_cases hf : m.hasFixChannelAmount = true
      · rw [distributePass_cons_fix _ _ _ _ _ hf, List.getElem?_cons_succ]
        exact ih _ j hj
      · by_cases hc : some m.id = cause
        · rw [distributePass_cons_cause _ _ _ _ _ hf hc, List.getElem?_cons_succ]
          exact ih _ j hj
        · rw [distributePass_cons_assign _ _ _ _ _ hf hc, List.getElem?_cons_succ]
          exact ih _ j hj

theorem numFlexible_eq_zero_of_all_fixed (nodes : List NodeBase)
    (hall : ∀ n ∈ nodes, n.hasFixChannelAmount = true) : numFlexible nodes = 0 := by
  unfold numFlexible
  rw [List.length_eq_zero, List.filter_eq_nil_iff]
  intro n hn
  simp [hall n hn]

theorem numPerNodeDivisor_eq (C : Int) (nodes : List NodeBase) :
    numPerNodeDivisor C nodes
      = (if 1 ≤ numFlexible nodes then some (numFlexible nodes : Int) else none) := by
  have hp := lockedPass_eq nodes C 0
  simp only [zero_add] at hp
  unfold numPerNodeDivisor
  rw [hp]
  by_cases hlen : nodes.length = 0
  · have h0 : numFlexible nodes = 0 := by
      have := numFlexible_le_length nodes; omega
    simp [hlen, h0]
  · by_cases hk : 1 ≤ numFlexible nodes
    · have : (0 : Int) < numFlexible nodes := by exact_mod_cast hk
      simp [hlen, hk, this]
    · have : ¬ (0 : Int) < numFlexible nodes := by omega
      simp [hlen, hk, this]

/-- C27: for every channel count and every cause node, `channelLayoutChanged`
leaves every child with a fixed channel amount exactly as it was; when all
children are fixed, no child changes, no `setNumChannels` is called and the
division is not reached; whenever the division is reached its divisor is
positive. -/
theorem C27_fixed_children_never_reassigned (C : Int) (nodes : List NodeBase)
    (cause : Option Nat) :
    (∀ (i : Nat) (n : NodeBase), nodes[i]? = some n → n.hasFixChannelAmount = true →
      (channelLayoutChanged C nodes cause).nodes[i]? = some n) ∧
    ((∀ n ∈ nodes, n.hasFixChannelAmount = true) →
      channelLayoutChanged C nodes cause = ⟨nodes, []⟩ ∧ numPerNodeDivisor C nodes = none) ∧
    (∀ d, numPerNodeDivisor C nodes = some d → 0 < d) := by
  refine ⟨?_, ?_, ?_⟩
  · intro i n hn hfix
    rw [channelLayoutChanged_eq_divisor]
    cases numPerNodeDivisor C nodes with
    | none => exact hn
    | some d => exact distributePass_keeps_fixed cause _ nodes _ i n hn hfix
  · intro hall
    have hnone : numPerNodeDivisor C nodes = none := by
      rw [numPerNodeDivisor_eq, numFlexible_eq_zero_of_all_fixed nodes hall]
      rfl
    refine ⟨?_, hnone⟩
    rw [channelLayoutChanged_eq_divisor, hnone]
  · intro d hd
    rw [numPerNodeDivisor_eq] at hd
    by_cases hk : 1 ≤ numFlexible nodes
    · simp only [hk, if_true, Option.some.injEq] at hd
      omega
    · simp [hk] at hd

/-- C27, instance: two fixed children and a cause; nothing changes and the run
does not divide. -/
theorem C27_fixed_children_never_reassigned_witness :
    (∀ n ∈ [({ id := 1, valueTree := 11, numChannels := 2, fixChannelAmount := true } : NodeBase),
            { id := 2, valueTree := 12, numChannels := 3, fixChannelAmount := true }],
      n.hasFixChannelAmount = true) ∧
    channelLayoutChanged 4
        [{ id := 1, valueTree := 11, numChannels := 2, fixChannelAmount := true },
         { id := 2, valueTree := 12, numChannels := 3, fixChannelAmount := true }] (some 1)
      = ⟨[{ id := 1, valueTree := 11, numChannels := 2, fixChannelAmount := true },
          { id := 2, valueTree := 12, numChannels := 3, fixChannelAmount := true }], []⟩ :=
  ⟨by decide,
   ((C27_fixed_children_never_reassigned 4
      [{ id := 1, valueTree := 11, numChannels := 2, fixChannelAmount := true },
       { id := 2, valueTree := 12, numChannels := 3, fixChannelAmount := true }]
      (some 1)).2.1 (by decide)).1⟩

theorem jmax_zero_jmin_of_nonpos (pool share : Int) (h : share ≤ 0) :
    jmax 0 (jmin pool share) = 0 := by
  unfold jmax jmin
  split_ifs <;> omega

theorem channelLayoutChanged_of_flexible (C : Int) (nodes : List NodeBase) (cause : Option Nat)
    (hk : 1 ≤ numFlexible nodes) :
    channelLayoutChanged C nodes cause
      = distributePass cause (Int.tdiv (C - fixedChannels nodes) (numFlexible nodes)) nodes
          (C - fixedChannels nodes) := by
  have hlen : nodes.length ≠ 0 := by
    have := numFlexible_le_length nodes; omega
  have hp := lockedPass_eq nodes C 0
  simp only [zero_add] at hp
  have hkpos : (0 : Int) < numFlexible nodes := by exact_mod_cast hk
  unfold channelLayoutChanged
  simp only [hlen, if_false, hp, hkpos, if_true]

theorem tdiv_nonpos_of_neg {a k : Int} (ha : a < 0) (hk : 0 < k) : Int.tdiv a k ≤ 0 := by
  have h1 : 0 ≤ Int.tdiv (-a) k := Int.tdiv_nonneg (by omega) (le_of_lt hk)
  rw [Int.neg_tdiv] at h1
  omega

/-- C28: when the fixed children's counts sum to F > C, every flexible child
other than the cause node is assigned 0 channels, and every count handed to
`setNumChannels` is 0. -/
theorem C28_overcommitted_fixed_starve_flexible (C : Int) (cause : Option Nat)
    (pre : List NodeBase) (n : NodeBase) (post : List NodeBase)
    (hover : C < fixedChannels (pre ++ n :: post))
    (hflex : n.hasFixChannelAmount = false) (hcause : some n.id ≠ cause) :
    (channelLayoutChanged C (pre ++ n :: post) cause).nodes[pre.length]?
      = some (n.setNumChannels 0) ∧
    ∀ c ∈ (channelLayoutChanged C (pre ++ n :: post) cause).setNumChannelsCalls, c.2 = 0 := by
  have hk := numFlexible_pos_of_flexible pre n post hflex
  have hkpos : (0 : Int) < numFlexible (pre ++ n :: post) := by exact_mod_cast hk
  have hshare : Int.tdiv (C - fixedChannels (pre ++ n :: post)) (numFlexible (pre ++ n :: post))
      ≤ 0 := tdiv_nonpos_of_neg (by omega) hkpos
  rw [channelLayoutChanged_of_flexible C _ cause hk]
  constructor
  · rw [distributePass_at cause _ pre n post _ hflex, if_neg hcause,
      jmax_zero_jmin_of_nonpos _ _ hshare]
  · intro c hc
    have hb := distributePass_calls_bounds cause _ _ _ c hc
    rw [max_eq_left hshare] at hb
    omega

/-- C28, instance: two channels, a fixed child holding three, and a flexible
child with one channel that is not the cause: it is assigned 0. -/
theorem C28_overcommitted_fixed_starve_flexible_witness :
    (2 : Int) < fixedChannels
        ([{ id := 1, valueTree := 11, numChannels := 3, fixChannelAmount := true }]
          ++ { id := 2, valueTree := 12, numChannels := 1, fixChannelAmount := false } :: []) ∧
    (channelLayoutChanged 2
        ([{ id := 1, valueTree := 11, numChannels := 3, fixChannelAmount := true }]
          ++ { id := 2, valueTree := 12, numChannels := 1, fixChannelAmount := false } :: [])
        none).nodes[1]?
      = some { id := 2, valueTree := 12, numChannels := 0, fixChannelAmount := false } :=
  ⟨by decide,
   (C28_overcommitted_fixed_starve_flexible 2 none
      [{ id := 1, valueTree := 11, numChannels := 3, fixChannelAmount := true }]
      { id := 2, valueTree := 12, numChannels := 1, fixChannelAmount := false } []
      (by decide) rfl (by decide)).1⟩

end MultiChannelNode

end scriptnode

namespace scriptnode

/-! ## NodeContainer: the guard flag -/

theorem MultiChannelNode.virtuals_keepFlag : MultiChannelNode.virtuals.KeepFlag :=
  ⟨fun _ _ => rfl, fun _ _ _ => rfl⟩

namespace NodeContainer

theorem prepareIfReady_flag (V : Virtuals) (hV : V.KeepFlag) (s : NodeContainer) :
    (prepareIfReady V s).channelRecursionProtection = s.channelRecursionProtection := by
  unfold prepareIfReady
  split_ifs
  · rw [hV.2]; rfl
  · rfl

theorem updateChannels_flag (V : Virtuals) (hV : V.KeepFlag) (g : Nat → Option NodeBase)
    (s : NodeContainer) (v : Nat) :
    (updateChannels V g s v).channelRecursionProtection = s.channelRecursionProtection := by
  unfold updateChannels
  split_ifs
  · rw [prepareIfReady_flag V hV, hV.1]; rfl
  · rfl
  · rfl
  · rfl

/-- Virtual methods that re-enter `updateChannels` from their layout body
return with the guard flag as they found it when the methods involved do. -/
theorem reenterOnLayout_keepFlag (V Vin : Virtuals) (hV : V.KeepFlag) (hVin : Vin.KeepFlag)
    (g : Nat → Option NodeBase) (w : Nat) : (V.reenterOnLayout Vin g w).KeepFlag :=
  ⟨fun cause s => by
      show (V.channelLayoutChanged cause (updateChannels Vin g s w)).channelRecursionProtection = _
      rw [hV.1, updateChannels_flag Vin hVin],
   hV.2⟩

/-- C24: every call of `updateChannels`, on any entity, returns with the guard
flag `channelRecursionProtection` holding the value it had when the call
started; so from a state with the flag false it is false after every sequence
of completed calls (for virtual methods that return with the flag as they
found it, as re-entrant calls of `updateChannels` do). -/
theorem C24_guard_is_scoped (V : Virtuals) (hV : V.KeepFlag) (g : Nat → Option NodeBase)
    (s : NodeContainer) :
    (∀ v : Nat,
      (updateChannels V g s v).channelRecursionProtection = s.channelRecursionProtection) ∧
    (∀ entities : List Nat, s.channelRecursionProtection = false →
      (entities.foldl (updateChannels V g) s).channelRecursionProtection = false) := by
  refine ⟨fun v => updateChannels_flag V hV g s v, ?_⟩
  intro entities
  induction entities generalizing s with
  | nil => intro h; exact h
  | cons v rest ih =>
    intro h
    rw [List.foldl_cons]
    apply ih
    rw [updateChannels_flag V hV, h]

/-- C24, instance: the example container recomputes for its own entity, for a
child and for a foreign entity, with a layout body that re-enters for the other
child; the flag is false afterwards. -/
theorem C24_guard_is_scoped_witness :
    Examples.container.channelRecursionProtection = false ∧
    ([100, 11, 5].foldl
        (updateChannels
          (MultiChannelNode.virtuals.reenterOnLayout MultiChannelNode.virtuals
            Examples.getNodeForValueTree 12)
          Examples.getNodeForValueTree)
        Examples.container).channelRecursionProtection = false :=
  ⟨rfl,
   (C24_guard_is_scoped
      (MultiChannelNode.virtuals.reenterOnLayout MultiChannelNode.virtuals
        Examples.getNodeForValueTree 12)
      (reenterOnLayout_keepFlag MultiChannelNode.virtuals MultiChannelNode.virtuals
        MultiChannelNode.virtuals_keepFlag MultiChannelNode.virtuals_keepFlag
        Examples.getNodeForValueTree 12)
      Examples.getNodeForValueTree Examples.container).2 [100, 11, 5] rfl⟩

end NodeContainer

/-! ## SplitNode: branches -/

namespace SplitNode

theorem foldl_processStep_rest {α : Type} [Add α] (X : Buffer α) (rest : List (ChildNode α))
    (data : Buffer α) (inv : List Nat) :
    rest.foldl (processStep X) { data := data, isFirst := false, invoked := inv }
      = { data := rest.foldl (fun acc d => acc.add (d.process X)) data, isFirst := false,
          invoked := inv ++ rest.map ChildNode.id } := by
  induction rest generalizing data inv with
  | nil => simp
  | cons d rest ih =>
    simp only [List.foldl_cons, processStep, Bool.false_eq_true, if_false, ih, List.map_cons,
      List.append_assoc, List.singleton_append]

/-- C23: a non-bypassed split container with the children P1, P2, ..., Pn
leaves the buffer P1(X) + P2(X) + ... + Pn(X): every child, also those after
the first, is applied to the original input X, the results are added in list
order, and every child is invoked once. -/
theorem C23_split_sums_independent_branches {α : Type} [Add α] (first : ChildNode α)
    (rest : List (ChildNode α)) (X : Buffer α) :
    process false (first :: rest) X
      = (rest.foldl (fun acc d => acc.add (d.process X)) (first.process X),
         first.id :: rest.map ChildNode.id) := by
  simp only [process, Bool.false_eq_true, if_false, List.foldl_cons, processStep, if_true,
    List.nil_append, foldl_processStep_rest, List.singleton_append]

/-- C23, instance: the first child doubles every sample, the second adds one;
on the input (1, 10) the result is (2, 20) + (2, 11) = (4, 31): the second
child saw the original input, not the doubled one. -/
theorem C23_split_sums_independent_branches_witness :
    process false
        ([{ id := 1, process := fun b => b.map (fun ch => ch.map (fun x => x + x)),
            processSingle := fun f _ => f.map (fun x => x + x) },
          { id := 2, process := fun b => b.map (fun ch => ch.map (fun x => x + 1)),
            processSingle := fun f _ => f.map (fun x => x + 1) }] : List (ChildNode Int))
        [[1, 10]]
      = ([[4, 31]], [1, 2]) :=
  (@C23_split_sums_independent_branches Int _
    { id := 1, process := fun b => b.map (fun ch => ch.map (fun x => x + x)),
      processSingle := fun f _ => f.map (fun x => x + x) }
    [{ id := 2, process := fun b => b.map (fun ch => ch.map (fun x => x + 1)),
       processSingle := fun f _ => f.map (fun x => x + 1) }]
    [[1, 10]]).trans rfl

theorem ofFrame_add {α : Type} [Add α] (a b : List α) :
    (Buffer.ofFrame a).add (Buffer.ofFrame b)
      = Buffer.ofFrame (List.zipWith (fun x y => x + y) a b) := by
  unfold Buffer.add Buffer.ofFrame
  induction a generalizing b with
  | nil => simp
  | cons x a ih =>
    cases b with
    | nil => simp
    | cons y b => simp [ih]

theorem floatVectorAdd_full {α : Type} [Add α] (a b : List α) (n : Nat) (ha : a.length = n)
    (hb : b.length = n) :
    FloatVectorOperations.add a b n = List.zipWith (fun x y => x + y) a b := by
  unfold FloatVectorOperations.add
  rw [List.take_of_length_le (by omega), List.take_of_length_le (by omega),
    List.drop_of_length_le (by omega), List.append_nil]

theorem foldl_steps_agree {α : Type} [Add α] (numChannels : Nat) (original : List α)
    (horig : original.length = numChannels) (nodes : List (ChildNode α))
    (hagree : ∀ c ∈ nodes, ∀ g : List α, g.length = numChannels →
      (c.processSingle g numChannels).length = numChannels ∧
      c.process (Buffer.ofFrame g) = Buffer.ofFrame (c.processSingle g numChannels))
    (frame : List α) (hframe : frame.length = numChannels) (isFirst : Bool) (inv : List Nat) :
    nodes.foldl (processStep (Buffer.ofFrame original))
        { data := Buffer.ofFrame frame, isFirst := isFirst, invoked := inv }
      = { data := Buffer.ofFrame
            (nodes.foldl (processSingleStep original numChannels)
              { frameData := frame, isFirst := isFirst, invoked := inv }).frameData,
          isFirst := (nodes.foldl (processSingleStep original numChannels)
              { frameData := frame, isFirst := isFirst, invoked := inv }).isFirst,
          invoked := (nodes.foldl (processSingleStep original numChannels)
              { frameData := frame, isFirst := isFirst, invoked := inv }).invoked } := by
  induction nodes generalizing frame isFirst inv with
  | nil => rfl
  | cons c rest ih =>
    have hc := hagree c (List.mem_cons_self _ _)
    have hrest : ∀ d ∈ rest, ∀ g : List α, g.length = numChannels →
        (d.processSingle g numChannels).length = numChannels ∧
        d.process (Buffer.ofFrame g) = Buffer.ofFrame (d.processSingle g numChannels) :=
      fun d hd => hagree d (List.mem_cons_of_mem _ hd)
    cases isFirst with
    | true =>
      simp only [List.foldl_cons, processStep, processSingleStep, if_true, (hc frame hframe).2]
      exact ih hrest _ (hc frame hframe).1 false _
    | false =>
      have hsum : (List.zipWith (fun x y => x + y) frame
          (c.processSingle original numChannels)).length = numChannels := by
        rw [List.length_zipWith, hframe, (hc original horig).1]; simp
      simp only [List.foldl_cons, processStep, processSingleStep, Bool.false_eq_true, if_false,
        (hc original horig).2, ofFrame_add,
        floatVectorAdd_full frame _ numChannels hframe (hc original horig).1]
      exact ih hrest _ hsum false _

/-- C29: for every bypass state and every frame of `numChannels` samples,
`SplitNode::processSingle` produces the frame, and invokes the children, that
`SplitNode::process` produces on the buffer holding that single frame, given
that every child works in place on frames of `numChannels` samples and that its
`processSingle` agrees with its `process` on one-frame buffers. -/
theorem C29_frame_split_agrees_with_block_split {α : Type} [Add α] (isBypassed : Bool)
    (nodes : List (ChildNode α)) (frameData : List α) (numChannels : Nat)
    (hlen : frameData.length = numChannels)
    (hagree : ∀ c ∈ nodes, ∀ g : List α, g.length = numChannels →
      (c.processSingle g numChannels).length = numChannels ∧
      c.process (Buffer.ofFrame g) = Buffer.ofFrame (c.processSingle g numChannels)) :
    process isBypassed nodes (Buffer.ofFrame frameData)
      = (Buffer.ofFrame (processSingle isBypassed nodes frameData numChannels).1,
         (processSingle isBypassed nodes frameData numChannels).2) := by
  cases isBypassed with
  | true => rfl
  | false =>
    have htake : frameData.take numChannels = frameData :=
      List.take_of_length_le (by omega)
    simp only [process, processSingle, Bool.false_eq_true, if_false, htake]
    rw [foldl_steps_agree numChannels frameData hlen nodes hagree frameData hlen true []]

/-- C29, instance: two identity children on a frame of two channels. -/
theorem C29_frame_split_agrees_with_block_split_witness :
    ([3, -1] : List Int).length = 2 ∧
    process false [identityChild Int 1, identityChild Int 2] (Buffer.ofFrame [3, -1])
      = (Buffer.ofFrame
          (processSingle false [identityChild Int 1, identityChild Int 2] [3, -1] 2).1,
         (processSingle false [identityChild Int 1, identityChild Int 2] [3, -1] 2).2) ∧
    (processSingle false [identityChild Int 1, identityChild Int 2] [3, -1] 2).1 = [6, -2] :=
  ⟨rfl,
   C29_frame_split_agrees_with_block_split false
     [identityChild Int 1, identityChild Int 2] [3, -1] 2 rfl (by
       intro c hc g hg
       simp only [List.mem_cons, List.mem_singleton, List.not_mem_nil, or_false] at hc
       rcases hc with rfl | rfl <;> exact ⟨hg, rfl⟩),
   by decide⟩

end SplitNode

end scriptnode

namespace scriptnode

/-! ## MacroParameter: closures and fan-out -/

namespace MacroParameter

theorem createCallback_parameter_live (H : DspHelpers) (c : Connection) (q : ParameterRef) (value : ℚ)
    (w : World) (hnb : c.nodeToBeBypassed = none) (hp : c.p = some q)
    (hlive : q.node ∈ w.liveNodes) :
    c.createCallbackForNormalisedInput H value w
      = some (w.perform
          (if c.opType = OperatorIds.Add then
             Effect.addModulationValue q
               (H.conversion c.conversion c.connectionRange c.inverted value)
           else if c.opType = OperatorIds.Multiply then
             Effect.multiplyModulationValue q
               (H.conversion c.conversion c.connectionRange c.inverted value)
           else
             Effect.setValueAndStoreAsync q
               (H.conversion c.conversion c.connectionRange c.inverted value))) := by
  unfold Connection.createCallbackForNormalisedInput
  rw [hnb]
  by_cases hadd : c.opType = OperatorIds.Add
  · simp [hadd, wrapIntoConversionLambda, bindParameter, hp, hlive]
  · by_cases hmul : c.opType = OperatorIds.Multiply
    · simp only [if_neg hadd, if_pos hmul]
      simp [wrapIntoConversionLambda, bindParameter, hp, hlive]
    · simp only [if_neg hadd, if_neg hmul]
      simp [wrapIntoConversionLambda, bindParameter, hp, hlive]

/-- C22: the closure of a valid non-bypass connection, on a live target,
performs exactly one operation on the target parameter with the remapped
value: `addModulationValue` for the operator Add, `multiplyModulationValue` for
Multiply, and `setValueAndStoreAsync` for every other operator value. -/
theorem C22_operator_dispatch (H : DspHelpers) (c : Connection) (q : ParameterRef) (value : ℚ)
    (w : World) (hnb : c.nodeToBeBypassed = none) (hp : c.p = some q)
    (hlive : q.node ∈ w.liveNodes) :
    c.createCallbackForNormalisedInput H value w
      = some (w.perform
          (if c.opType = OperatorIds.Add then
             Effect.addModulationValue q
               (H.conversion c.conversion c.connectionRange c.inverted value)
           else if c.opType = OperatorIds.Multiply then
             Effect.multiplyModulationValue q
               (H.conversion c.conversion c.connectionRange c.inverted value)
           else
             Effect.setValueAndStoreAsync q
               (H.conversion c.conversion c.connectionRange c.inverted value))) := by
  unfold Connection.createCallbackForNormalisedInput
  rw [hnb]
  by_cases hadd : c.opType = OperatorIds.Add
  · simp [hadd, wrapIntoConversionLambda, bindParameter, hp, hlive]
  · by_cases hmul : c.opType = OperatorIds.Multiply
    · simp only [if_neg hadd, if_pos hmul]
      simp [wrapIntoConversionLambda, bindParameter, hp, hlive]
    · simp only [if_neg hadd, if_neg hmul]
      simp [wrapIntoConversionLambda, bindParameter, hp, hlive]

/-- C22, instance: the connection to `Gain` of `osc` with the operator Add and
with an unknown operator. -/
theorem C22_operator_dispatch_witness :
    (Connection.create Examples.network { start := 0, stop := 1 }
        { Examples.gainOsc with opType := "Add" }).createCallbackForNormalisedInput
        Examples.helpers (1 / 2) Examples.world
      = some (Examples.world.perform
          (Effect.addModulationValue { node := 1, id := "Gain" }
            (Examples.helpers.conversion "Identity" { start := 0, stop := 1 } false (1 / 2)))) ∧
    (Connection.create Examples.network { start := 0, stop := 1 }
        { Examples.gainOsc with opType := "Blend" }).createCallbackForNormalisedInput
        Examples.helpers (1 / 2) Examples.world
      = some (Examples.world.perform
          (Effect.setValueAndStoreAsync { node := 1, id := "Gain" }
            (Examples.helpers.conversion "Identity" { start := 0, stop := 1 } false (1 / 2)))) :=
  ⟨C22_operator_dispatch Examples.helpers
      (Connection.create Examples.network { start := 0, stop := 1 }
        { Examples.gainOsc with opType := "Add" })
      { node := 1, id := "Gain" } (1 / 2) Examples.world (by decide) (by decide) (by decide),
   C22_operator_dispatch Examples.helpers
      (Connection.create Examples.network { start := 0, stop := 1 }
        { Examples.gainOsc with opType := "Blend" })
      { node := 1, id := "Gain" } (1 / 2) Examples.world (by decide) (by decide) (by decide)⟩

theorem closure_performs (H : DspHelpers) (c : Connection) (value : ℚ) (w : World)
    (hvalid : c.isValid = true)
    (hlive : ∀ n, c.targetNode = some n → n ∈ w.liveNodes) :
    ∃ e, c.operation H value = some e ∧
      c.createCallbackForNormalisedInput H value w = some (w.perform e) := by
  cases hb : c.nodeToBeBypassed with
  | some n =>
    have hn : n ∈ w.liveNodes := hlive n (by simp [Connection.targetNode, hb])
    refine ⟨_, ?_, createCallback_bypass_live H c n hb value w hn⟩
    simp [Connection.operation, hb]
  | none =>
    cases hp : c.p with
    | none => simp [Connection.isValid, hb, hp] at hvalid
    | some q =>
      have hq : q.node ∈ w.liveNodes := hlive q.node (by simp [Connection.targetNode, hb, hp])
      refine ⟨_, ?_, createCallback_parameter_live H c q value w hb hp hq⟩
      simp [Connection.operation, hb, hp]

theorem callAll_performs (H : DspHelpers) (value : ℚ) (connections : List Connection)
    (w : World) (hvalid : ∀ c ∈ connections, c.isValid = true)
    (hlive : ∀ c ∈ connections, ∀ n, c.targetNode = some n → n ∈ w.liveNodes) :
    callAll (connections.map (Connection.createCallbackForNormalisedInput H)) value w
      = some { w with effects := w.effects
                ++ connections.filterMap (fun c => c.operation H value) } ∧
    (connections.filterMap (fun c => c.operation H value)).length = connections.length := by
  induction connections generalizing w with
  | nil => simp [callAll]
  | cons c rest ih =>
    obtain ⟨e, he, hcb⟩ := closure_performs H c value w (hvalid c (List.mem_cons_self _ _))
      (hlive c (List.mem_cons_self _ _))
    have hrest := ih (w.perform e) (fun d hd => hvalid d (List.mem_cons_of_mem _ hd))
      (fun d hd n hn => hlive d (List.mem_cons_of_mem _ hd) n hn)
    constructor
    · simp only [List.map_cons, callAll, hcb, hrest.1, List.filterMap_cons, he]
      simp [World.perform]
    · simp only [List.filterMap_cons, he, List.length_cons, hrest.2]

theorem validConnections_valid (network : List NodeBase) (r : NormalisableRange)
    (cTree : List ConnectionData) :
    ∀ c ∈ validConnections network r cTree, c.isValid = true := by
  intro c hc
  rw [validConnections_eq, List.mem_map] at hc
  obtain ⟨d, hd, rfl⟩ := hc
  rw [isValid_create]
  exact (List.mem_filter.mp hd).2

/-- C21: for every input x the callback installed by `rebuildCallback` runs the
closures of the valid connections one after the other in connection-list order,
all with the same argument: x itself when the input range is the identity
range, x normalised through the input range otherwise.  When the targets
exist, exactly one operation per valid connection is performed, in list
order. -/
theorem C21_callback_fan_out (H : DspHelpers) (network : List NodeBase)
    (r : NormalisableRange) (cTree : List ConnectionData) (x : ℚ) (w : World) :
    (rebuildCallback H network r cTree).callback x w
      = callAll ((rebuildCallback H network r cTree).connections.map
            (Connection.createCallbackForNormalisedInput H))
          (if H.isIdentity r then x else H.convertTo0to1 r x) w ∧
    ((∀ c ∈ (rebuildCallback H network r cTree).connections,
        ∀ n, c.targetNode = some n → n ∈ w.liveNodes) →
      (rebuildCallback H network r cTree).callback x w
        = some (World.mk w.liveNodes (w.effects
            ++ (rebuildCallback H network r cTree).connections.filterMap
                (fun c => c.operation H (if H.isIdentity r then x else H.convertTo0to1 r x)))) ∧
      ((rebuildCallback H network r cTree).connections.filterMap
          (fun c => c.operation H (if H.isIdentity r then x else H.convertTo0to1 r x))).length
        = (rebuildCallback H network r cTree).connections.length) := by
  rw [rebuildCallback_connections, rebuildCallback_callback]
  refine ⟨rfl, ?_⟩
  intro hlive
  exact callAll_performs H _ _ w (validConnections_valid network r cTree) hlive

/-- C21, instance: a macro parameter with the range [0, 10] connected to the
bypass state of `fx`, to a lost node and to `Gain` of `osc`; the input 5 is
normalised to 1/2 and handed to the two valid connections in order. -/
theorem C21_callback_fan_out_witness :
    (rebuildCallback Examples.helpers Examples.network { start := 0, stop := 10 }
        [Examples.bypassFx, Examples.lostNode, Examples.gainOsc]).connections.length = 2 ∧
    (rebuildCallback Examples.helpers Examples.network { start := 0, stop := 10 }
        [Examples.bypassFx, Examples.lostNode, Examples.gainOsc]).callback 5 Examples.world
      = some (World.mk Examples.world.liveNodes (Examples.world.effects
          ++ (rebuildCallback Examples.helpers Examples.network { start := 0, stop := 10 }
                [Examples.bypassFx, Examples.lostNode, Examples.gainOsc]).connections.filterMap
              (fun c => c.operation Examples.helpers
                (if Examples.helpers.isIdentity { start := 0, stop := 10 } then 5
                 else Examples.helpers.convertTo0to1 { start := 0, stop := 10 } 5)))) ∧
    (rebuildCallback Examples.helpers Examples.network { start := 0, stop := 10 }
        [Examples.bypassFx, Examples.lostNode, Examples.gainOsc]).callback 5 Examples.world
      = some { liveNodes := [1, 2],
               effects := [Effect.setBypassed 2 true,
                           Effect.setValueAndStoreAsync { node := 1, id := "Gain" } (1 / 2)] } :=
  ⟨by decide,
   ((C21_callback_fan_out Examples.helpers Examples.network { start := 0, stop := 10 }
      [Examples.bypassFx, Examples.lostNode, Examples.gainOsc] 5 Examples.world).2
      (by decide)).1,
   by
    simp [rebuildCallback, validConnections, Connection.create, Connection.isValid,
      Examples.network, Examples.osc, Examples.fx, Examples.bypassFx, Examples.gainOsc,
      Examples.lostNode, Examples.helpers, callAll, Connection.createCallbackForNormalisedInput,
      PropertyIds.Bypassed, Examples.world, World.perform, bindParameter, jlimit,
      NormalisableRange.getRange, Range.contains,
      wrapIntoConversionLambda, OperatorIds.SetValue, OperatorIds.Add, OperatorIds.Multiply]
    norm_num⟩

end MacroParameter

end scriptnode

/-! ## AudioTimelineObject: copied sample ranges -/

namespace hise

namespace AudioTimelineObject

/-- Every copy stays inside the output buffer, whatever the sample offset is. -/
theorem process_insideBuffer (bufferNumSamples contentNumSamples sampleOffset : Int)
    (c : Copy) (hc : process bufferNumSamples contentNumSamples sampleOffset = some c) :
    c.insideBuffer bufferNumSamples = true := by
  unfold process at hc
  by_cases hneg : sampleOffset < 0
  · simp only [hneg, if_true] at hc
    split_ifs at hc with hnum
    simp only [Option.some.injEq] at hc
    subst hc
    simp only [Copy.insideBuffer, Bool.and_eq_true, decide_eq_true_eq]
    omega
  · simp only [hneg, if_false] at hc
    split_ifs at hc with hnum
    simp only [Option.some.injEq] at hc
    subst hc
    simp only [Copy.insideBuffer, Bool.and_eq_true, decide_eq_true_eq]
    unfold scriptnode.jmin
    split_ifs <;> omega

/-- With a sample offset that is not negative, every copy stays inside the
content: this branch limits the number of samples by what the content has
left. -/
theorem process_insideContent_of_nonneg (bufferNumSamples contentNumSamples sampleOffset : Int)
    (hs : 0 ≤ sampleOffset) (c : Copy)
    (hc : process bufferNumSamples contentNumSamples sampleOffset = some c) :
    c.insideContent contentNumSamples = true := by
  unfold process at hc
  have hneg : ¬ sampleOffset < 0 := by omega
  simp only [hneg, if_false] at hc
  split_ifs at hc with hnum
  simp only [Option.some.injEq] at hc
  subst hc
  simp only [Copy.insideContent, Bool.and_eq_true, decide_eq_true_eq]
  unfold scriptnode.jmin
  split_ifs <;> omega

/-- C30 (the code at the failing input): an output buffer of 512 samples, a
content of 100 samples and the sample offset -10.  The negative branch copies
512 - 10 = 502 samples from the start of the content into the buffer at
position 10: the copy stays inside the buffer but reads the content range
[0, 502), which is not inside [0, 100).  With the offset +10 the other branch
limits the copy to the 90 samples the content has left. -/
theorem C30_timeline_copy_reads_past_content :
    process 512 100 (-10) = some { targetOffset := 10, contentOffset := 0, numToCopy := 502 } ∧
    Copy.insideBuffer { targetOffset := 10, contentOffset := 0, numToCopy := 502 } 512 = true ∧
    Copy.insideContent { targetOffset := 10, contentOffset := 0, numToCopy := 502 } 100 = false ∧
    process 512 100 10 = some { targetOffset := 0, contentOffset := 10, numToCopy := 90 } ∧
    Copy.insideContent { targetOffset := 0, contentOffset := 10, numToCopy := 90 } 100 = true := by
  decide

end AudioTimelineObject

end hise
